import Mathlib

/-!
# AkaveAI marketplace front-end: purchase and upload flows

A shallow embedding of the two React components of the repository,
`DatasetList.jsx` (catalog and purchase flow) and `UploadForm.jsx` (upload and
listing flow), together with the library functions their price logic rests on:
`ethers.utils.parseEther` / `formatEther` (ethers v5 `parseFixed` / `formatFixed`
with 18 decimals) and the ECMAScript `parseFloat`.

An asynchronous handler is embedded as a function from the outcomes of its
external calls (wallet, contract, backend, DOM) to the ordered list of effects
it performs and the component state it leaves behind.
-/

deriving instance DecidableEq for Except

namespace AkaveAI

/-! ## Decimal strings and numbers -/

/-- Value of one decimal digit character. -/
def digitVal (c : Char) : Nat := c.toNat - 48

/-- Value of a string of decimal digits, most significant digit first
(what `new BN(str)` / `BigNumber.from(str)` computes on a digit string). -/
def digitsToNat (cs : List Char) : Nat :=
  cs.foldl (fun acc c => 10 * acc + digitVal c) 0

/-- Number of binary digits of `n` minus one (`floor (log2 n)` for `n > 0`), by halving. -/
def ilog2 : Nat → Nat → Nat
  | 0, _ => 0
  | fuel + 1, n => if n < 2 then 0 else ilog2 fuel (n / 2) + 1

/-- An ECMAScript Number, an IEEE-754 binary64 value. A finite value is
`mant * 2 ^ exp` in canonical form: `2^52 ≤ |mant| < 2^53` and `-1074 ≤ exp ≤ 971`
for normal numbers, `|mant| < 2^52` and `exp = -1074` for subnormal numbers and zero.
The two zeros are one value here: `===` and `!==` do not tell them apart. -/
inductive JsNumber where
  | nan
  | finite (mant : Int) (exp : Int)
  | infinity (negative : Bool)
deriving DecidableEq

/-- JavaScript `a !== b` on Numbers: `NaN` differs from everything, itself included. -/
def JsNumber.strictNe (a b : JsNumber) : Bool :=
  match a, b with
  | .nan, _ => true
  | _, .nan => true
  | x, y => decide (x ≠ y)

/-- The integer `e` with `2 ^ e ≤ n / d < 2 ^ (e + 1)`, for positive `n` and `d`. -/
def floorLog2 (n d : Nat) : Int :=
  let l : Int := (ilog2 n n : Int) - (ilog2 d d : Int)
  if 0 ≤ l then (if d * 2 ^ l.toNat ≤ n then l else l - 1)
  else (if d ≤ n * 2 ^ (-l).toNat then l else l - 1)

/-- The integer nearest to `n / d`, ties going to the even one. -/
def roundHalfEven (n d : Nat) : Nat :=
  let q := n / d
  let r := n % d
  if 2 * r < d then q
  else if d < 2 * r then q + 1
  else if q % 2 = 0 then q else q + 1

/-- The Number value of a rational: IEEE-754 round-to-nearest, ties-to-even, to
binary64 (53-bit significand, overflow to infinity, gradual underflow). -/
def toNumber (q : ℚ) : JsNumber :=
  let n := q.num.natAbs
  let d := q.den
  if n = 0 then .finite 0 (-1074)
  else
    let e : Int := max (floorLog2 n d - 52) (-1074)
    let m : Nat :=
      if 0 ≤ e then roundHalfEven n (d * 2 ^ e.toNat)
      else roundHalfEven (n * 2 ^ (-e).toNat) d
    let m1 : Nat := if m = 2 ^ 53 then 2 ^ 52 else m
    let e1 : Int := if m = 2 ^ 53 then e + 1 else e
    if 971 < e1 then .infinity (decide (q.num < 0))
    else .finite (if q.num < 0 then -(m1 : Int) else (m1 : Int)) e1

/-- The rational `± n * 10 ^ k`, the mathematical value of a decimal literal with
digits `n` and decimal exponent `k`. -/
def decimalValue (negative : Bool) (n : Nat) (k : Int) : ℚ :=
  let s : Int := if negative then -(n : Int) else (n : Int)
  if 0 ≤ k then mkRat (s * 10 ^ k.toNat) 1 else mkRat s (10 ^ (-k).toNat)

/-- ECMAScript `WhiteSpace` and `LineTerminator` code points, which `parseFloat` skips
at the start of its input. -/
def isWhiteSpace (c : Char) : Bool :=
  c.toNat ∈ [0x09, 0x0A, 0x0B, 0x0C, 0x0D, 0x20, 0xA0, 0x1680, 0x2000, 0x2001, 0x2002,
    0x2003, 0x2004, 0x2005, 0x2006, 0x2007, 0x2008, 0x2009, 0x200A, 0x2028, 0x2029,
    0x202F, 0x205F, 0x3000, 0xFEFF]

/-- The `ExponentPart` at the start of `r`, if there is one: `e` or `E`, an optional
sign and at least one digit. Its value, 0 when absent. -/
def exponentPart (r : List Char) : Int :=
  if r.head? = some 'e' ∨ r.head? = some 'E' then
    if r.tail.head? = some '-' then -(digitsToNat (r.tail.tail.takeWhile Char.isDigit) : Int)
    else if r.tail.head? = some '+' then (digitsToNat (r.tail.tail.takeWhile Char.isDigit) : Int)
    else (digitsToNat (r.tail.takeWhile Char.isDigit) : Int)
  else 0

/-- The unsigned part of `parseFloat`: the longest prefix of `t` that is a
`StrUnsignedDecimalLiteral`, read as a Number; `NaN` when there is none. -/
def parseUnsigned (negative : Bool) (t : List Char) : JsNumber :=
  if "Infinity".toList.isPrefixOf t then .infinity negative
  else
    let intPart := t.takeWhile Char.isDigit
    let r1 := t.dropWhile Char.isDigit
    let hasDot : Bool := r1.head? = some '.'
    let fracPart : List Char := if hasDot then r1.tail.takeWhile Char.isDigit else []
    let r2 : List Char := if hasDot then r1.tail.dropWhile Char.isDigit else r1
    if intPart = [] ∧ fracPart = [] then .nan
    else
      toNumber (decimalValue negative (digitsToNat (intPart ++ fracPart))
        (exponentPart r2 - (fracPart.length : Int)))

/-- ECMAScript `parseFloat` on the characters of a string: skip leading white space,
take the longest prefix that is a `StrDecimalLiteral`, return its Number value. -/
def parseFloatChars (s : List Char) : JsNumber :=
  let t := s.dropWhile isWhiteSpace
  if t.head? = some '-' then parseUnsigned true t.tail
  else if t.head? = some '+' then parseUnsigned false t.tail
  else parseUnsigned false t

/-- Global `parseFloat(string)`. -/
def parseFloat (s : String) : JsNumber := parseFloatChars s.toList

/-! ## ethers v5 fixed-point conversion -/

/-- JavaScript `value.split(".")`: the components between the dots. -/
def splitDot : List Char → List (List Char)
  | [] => [[]]
  | c :: cs =>
    if c = '.' then [] :: splitDot cs
    else
      match splitDot cs with
      | [] => [[c]]
      | h :: t => (c :: h) :: t

/-- The loop `while (fraction[fraction.length - 1] === "0") fraction = fraction.substring(0, fraction.length - 1)`. -/
def dropTrailingZeros (fraction : List Char) : List Char :=
  fraction.rdropWhile (fun c => c = '0')

/-- The loop `while (fraction.length < multiplier.length - 1) fraction += "0"`. -/
def padRight (fraction : List Char) (decimals : Nat) : List Char :=
  fraction ++ List.replicate (decimals - fraction.length) '0'

/-- ethers v5 `parseFixed(value, decimals)`: a decimal string to an integer number of
smallest units. An exception is its message (the logger's suffix left out). -/
def parseFixed (value : List Char) (decimals : Nat) : Except String Int :=
  -- `value.match(/^-?[0-9.]+$/)`
  let negative : Bool := value.head? = some '-'
  let value : List Char := if negative then value.tail else value
  if value = [] ∨ ¬ value.all (fun c => c.isDigit || c = '.') then
    .error "invalid decimal value"
  else if value = ['.'] then .error "missing value"
  else
    let comps := splitDot value
    if 2 < comps.length then .error "too many decimal points"
    else
      let whole : List Char := comps.headD []
      let fraction : List Char := (comps.tail.head?).getD []
      let whole := if whole = [] then ['0'] else whole
      let fraction := if fraction = [] then ['0'] else fraction
      let fraction := dropTrailingZeros fraction
      if decimals < fraction.length then .error "fractional component exceeds decimals"
      else
        let fraction := if fraction = [] then ['0'] else fraction
        let fraction := padRight fraction decimals
        let wei : Int := (digitsToNat whole : Int) * 10 ^ decimals + (digitsToNat fraction : Int)
        .ok (if negative then wei * (-1) else wei)

/-- The loop `while (fraction.length < multiplier.length - 1) fraction = "0" + fraction`. -/
def padLeft (fraction : List Char) (decimals : Nat) : List Char :=
  List.replicate (decimals - fraction.length) '0' ++ fraction

/-- The first group of `fraction.match(/^([0-9]*[1-9]|0)(0*)/)` on a digit string:
the string without its trailing zeros, or `"0"` when nothing else is left. -/
def stripFraction (fraction : List Char) : List Char :=
  if dropTrailingZeros fraction = [] then ['0'] else dropTrailingZeros fraction

/-- ethers v5 `formatFixed(value, decimals)`: an integer number of smallest units to
a decimal string. -/
def formatFixed (value : Int) (decimals : Nat) : List Char :=
  let negative : Bool := value < 0
  let value : Nat := value.natAbs
  let multiplier : Nat := 10 ^ decimals
  let fraction := padLeft (Nat.toDigits 10 (value % multiplier)) decimals
  let fraction := stripFraction fraction
  let whole := Nat.toDigits 10 (value / multiplier)
  let value := if decimals = 0 then whole else whole ++ '.' :: fraction
  if negative then '-' :: value else value

/-- `ethers.utils.parseEther(ether)`, that is `parseUnits(ether, 18)`. -/
def parseEther (ether : String) : Except String Int := parseFixed ether.toList 18

/-- `ethers.utils.formatEther(wei)`, that is `formatUnits(wei, 18)`. -/
def formatEther (wei : Int) : String := String.mk (formatFixed wei 18)

/-! ## JavaScript values, effects and asynchronous flows -/

/-- A JavaScript value, as far as a catalog record's `contractId` goes. -/
inductive JsVal where
  | undefined
  | null
  | num (n : Int)
  | str (s : String)
deriving DecidableEq

/-- JavaScript truthiness (`!x` is its negation). -/
def JsVal.truthy : JsVal → Bool
  | .undefined => false
  | .null => false
  | .num n => n ≠ 0
  | .str s => s ≠ ""

/-- JavaScript `a || b` on strings: the empty string is falsy. An absent
(`undefined`) message is the empty string here, as both are falsy. -/
def orElse (a b : String) : String := if a = "" then b else a

/-- A string between double quotes, as in a template literal. -/
def quoted (s : String) : String :=
  String.singleton (Char.ofNat 34) ++ s ++ String.singleton (Char.ofNat 34)

/-- The state of the upload form, `formData`. -/
structure FormData where
  name : String
  description : String
  price : String
  file : Option String
deriving DecidableEq

/-- What a flow does to the world, in the order it does it. -/
inductive Effect where
  | toastError (message : String)
  | toastSuccess (message : String)
  | consoleLog (label : String)
  | consoleError (message : String)
  | setPurchasingId (id : Option String)
  | setIsUploading (uploading : Bool)
  | setFormData (formData : FormData)
  | getDataset (contractId : JsVal)
  | buyDataset (contractId : JsVal) (value : Int)
  | listDataset (bucketName fileName : String) (price : Int)
  | txWait
  | postBuy (walletAddress datasetId : String)
  | postUpload (walletAddress : String) (form : FormData)
  | postUpdateDatasetContractId (tempId : String) (contractId : Nat)
  | newBlob (bytes : List Nat)
  | linkClick (download : String)
  | clearFileInput
deriving DecidableEq

/-- A run of an asynchronous function: the effects performed, in order, and the
outcome, a value or the message of the exception thrown. -/
structure Run (α : Type) where
  trace : List Effect
  result : Except String α

namespace Run

/-- Sequencing: the second part runs only when the first did not throw. -/
def bind {α β : Type} (r : Run α) (f : α → Run β) : Run β :=
  match r.result with
  | .error e => ⟨r.trace, .error e⟩
  | .ok a => ⟨r.trace ++ (f a).trace, (f a).result⟩

instance : Monad Run where
  pure a := ⟨[], .ok a⟩
  bind := Run.bind

/-- Perform one effect. -/
def emit (e : Effect) : Run Unit := ⟨[e], .ok ()⟩

/-- `throw new Error(message)`. -/
def fail {α : Type} (message : String) : Run α := ⟨[], .error message⟩

/-- `await` of an external call whose outcome the environment decides, or a
library call that may throw. -/
def await {α : Type} (outcome : Except String α) : Run α := ⟨[], outcome⟩

/-- `try body catch (error) handler`. -/
def tryCatch {α : Type} (body : Run α) (handler : String → Run α) : Run α :=
  match body.result with
  | .ok _ => body
  | .error e => ⟨body.trace ++ (handler e).trace, (handler e).result⟩

/-- `try body finally cleanup`. -/
def tryFinally {α : Type} (body : Run α) (cleanup : Run Unit) : Run α :=
  match cleanup.result with
  | .ok _ => ⟨body.trace ++ cleanup.trace, body.result⟩
  | .error e => ⟨body.trace ++ cleanup.trace, .error e⟩

end Run

/-! ## The contract client -/

/-- One parameter of an ABI entry. -/
structure AbiParam where
  internalType : String
  name : String
  type : String
deriving DecidableEq

/-- One entry of a contract ABI. -/
structure AbiEntry where
  inputs : List AbiParam
  name : String
  outputs : List AbiParam
  stateMutability : String
  type : String
deriving DecidableEq

/-- Whether `new ethers.Contract(address, abi, signer)` has a member function `fn`:
ethers defines one for each function entry of the ABI and no other. -/
def declares (abi : List AbiEntry) (fn : String) : Bool :=
  abi.any (fun e => e.type = "function" ∧ e.name = fn)

/-- The call `contract.fn(...)`: a `TypeError` when the contract object has no such
member, else the call is made (effect `call`) and its outcome awaited. -/
def contractCall {α : Type} (abi : List AbiEntry) (fn : String) (call : Effect)
    (outcome : Except String α) : Run α :=
  if declares abi fn then do
    Run.emit call
    Run.await outcome
  else Run.fail ("contract." ++ fn ++ " is not a function")

/-- A backend response, as far as the flows read it: the `ok` flag and the outcome of
`await res.json()`, rejected when the body cannot be read. -/
structure HttpResponse (β : Type) where
  ok : Bool
  json : Except String β

/-! ## `DatasetList.jsx` -/

namespace DatasetList

/-- The `CONTRACT_ABI` literal of `DatasetList.jsx`, as written: one entry. The
comments around it ("ABI shortened for brevity", "Other contract functions") are
comments; the array holds `buyDataset` alone. -/
def CONTRACT_ABI : List AbiEntry :=
  [ { inputs := [{ internalType := "uint256", name := "_id", type := "uint256" }],
      name := "buyDataset",
      outputs := [],
      stateMutability := "payable",
      type := "function" } ]

/-- A catalog record, as `GET /api/datasets` returns it. `contractId` is `none` when
the record has no such property. -/
structure Dataset where
  _id : String
  contractId : Option JsVal
  name : String
  description : String
  price : String
  owner : String
deriving DecidableEq

/-- Reading `dataset.contractId`: an absent property reads as `undefined`. -/
def Dataset.readContractId (dataset : Dataset) : JsVal :=
  dataset.contractId.getD JsVal.undefined

/-- The tuple `getDataset(id)` returns: `(bucketName, fileName, price, owner)`, the
price a `uint256` number of wei. -/
structure OnChainDataset where
  bucketName : String
  fileName : String
  price : Nat
  owner : String
deriving DecidableEq

/-- The JSON object `POST /api/buy` answers with. -/
structure BuyBody where
  message : Option String
  encryptedData : Option String
  encryptionKey : Option String
  iv : Option String
deriving DecidableEq

/-- The outcomes of the external calls of one purchase flow: wallet hooks, contract
client, backend, cipher library and DOM. An exception is its `message`. -/
structure PurchaseEnv where
  /-- The hook value `useAccount().isConnected`. -/
  isConnected : Bool
  /-- Whether `useWalletClient().data` is truthy. -/
  walletClient : Bool
  /-- The hook value `useAccount().address`. -/
  address : String
  /-- Lines 53-55: `Web3Provider`, `getSigner`, `new ethers.Contract`. -/
  connect : Except String Unit
  /-- The call `await contract.getDataset(contractId)`. -/
  getDataset : JsVal → Except String OnChainDataset
  /-- The call `await contract.buyDataset(contractId, value)`: the transaction is sent. -/
  buyDataset : JsVal → Int → Except String Unit
  /-- The call `await tx.wait()`. -/
  wait : Except String Unit
  /-- The call `await fetch('/api/buy', ...)`; a body that is not an object is a
  rejected `json`. -/
  fetchBuy : Except String (HttpResponse BuyBody)
  /-- Lines 93-103: base64 and hex decoding, AES decryption, `atob`, the byte array. -/
  decrypt : BuyBody → Except String (List Nat)
  /-- The call `window.URL.createObjectURL(blob)` and the creation of the link element. -/
  createObjectURL : Except String String

/-- The `try` block of `handlePurchase`, lines 53-115. -/
def purchaseBody (abi : List AbiEntry) (env : PurchaseEnv) (mongoId : String)
    (contractId : JsVal) (name price : String) : Run Unit := do
  Run.await env.connect
  -- Get dataset from contract
  let dataset ← contractCall abi "getDataset" (.getDataset contractId) (env.getDataset contractId)
  Run.emit (.consoleLog "Dataset from contract:")
  -- Verify price matches
  let contractPrice := formatEther dataset.price
  if (parseFloat contractPrice).strictNe (parseFloat price) then
    Run.fail ("Price mismatch: UI says " ++ price ++ " tFIL, contract says "
      ++ contractPrice ++ " tFIL")
  else do
    -- Purchase on blockchain
    let priceWei ← Run.await (parseEther price)
    contractCall abi "buyDataset" (.buyDataset contractId priceWei)
      (env.buyDataset contractId priceWei)
    Run.emit (.toastSuccess "Transaction submitted! Processing purchase...")
    Run.emit .txWait
    Run.await env.wait
    -- Fetch encrypted data
    Run.emit (.postBuy env.address mongoId)
    let res ← Run.await env.fetchBuy
    let data ← Run.await res.json
    if !res.ok then
      Run.fail (orElse (data.message.getD "") "Failed to retrieve dataset")
    else do
      -- Decrypt and download
      let byteNumbers ← Run.await (env.decrypt data)
      Run.emit (.newBlob byteNumbers)
      let _url ← Run.await env.createObjectURL
      Run.emit (.linkClick (name ++ ".zip"))
      Run.emit (.toastSuccess ("Purchased and downloaded " ++ quoted name ++ "!"))

/-- The `catch (error)` block of `handlePurchase`. -/
def purchaseCatch (error : String) : Run Unit := do
  Run.emit (.consoleError ("Purchase error: " ++ error))
  Run.emit (.toastError (orElse error "Purchase failed"))

/-- `handlePurchase(mongoId, contractId, name, price)`. The ABI the contract client is
built from is a parameter; the component passes its `CONTRACT_ABI`. The catalog price
is given by its string form (`parseFloat(price)` and `price.toString()` both go
through it). -/
def handlePurchase (abi : List AbiEntry) (env : PurchaseEnv) (mongoId : String)
    (contractId : JsVal) (name price : String) : Run Unit :=
  if !env.isConnected || !env.walletClient then
    Run.emit (.toastError "Please connect your wallet first")
  else do
    Run.emit (.setPurchasingId (some mongoId))
    Run.tryFinally
      (Run.tryCatch (purchaseBody abi env mongoId contractId name price) purchaseCatch)
      (Run.emit (.setPurchasingId none))

/-- The `disabled` attribute of the Buy button of a catalog record:
`purchasingId === dataset._id || !isConnected || !dataset.contractId`. -/
def buyDisabled (purchasingId : Option String) (isConnected : Bool) (dataset : Dataset) : Bool :=
  decide (purchasingId = some dataset._id) || !isConnected || !dataset.readContractId.truthy

/-- The value of the `purchasingId` state after the effects of `trace`, from `init`. -/
def purchasingIdAfter (init : Option String) (trace : List Effect) : Option String :=
  trace.foldl (fun cur e => match e with
    | .setPurchasingId id => id
    | _ => cur) init

/-- Whether a run of `handlePurchase` on a record reaches its first `await`, that of
`contract.getDataset` on line 58. Every statement before it is synchronous: a run that
does not reach it (wallet check failed, lines 53-55 threw, or the contract has no
`getDataset` member) goes through `catch` and `finally` inside the click, and a run that
reaches it waits for the contract and is in flight when the click returns. -/
def suspends (abi : List AbiEntry) (env : PurchaseEnv) (dataset : Dataset) : Bool :=
  (handlePurchase abi env dataset._id dataset.readContractId dataset.name dataset.price).trace.any
    (fun e => decide (e = Effect.getDataset dataset.readContractId))

/-- The view while purchases run: the `purchasingId` state and the purchase flows in
flight, each by the `_id` of its dataset. A flow is in flight while it waits at an
`await`, its `finally` still to come. -/
structure ViewState where
  purchasingId : Option String
  inFlight : List String
deriving DecidableEq

/-- What happens to the view: the user clicks the Buy button of a record, or a flow in
flight runs to its `finally`. -/
inductive ViewEvent where
  | clickBuy (dataset : Dataset)
  | flowExits (mongoId : String)

/-- One step of the view. A click on a disabled button runs no handler. A click on an
enabled button runs `handlePurchase` on the record: when the run reaches its first
`await` the flow is in flight with `purchasingId` set to the record, otherwise the whole
run happened inside the click and `purchasingId` is what its effects left. A flow in
flight that exits clears `purchasingId` in its `finally`. -/
def ViewState.step (abi : List AbiEntry) (env : PurchaseEnv) (s : ViewState) :
    ViewEvent → ViewState
  | .clickBuy dataset =>
    if buyDisabled s.purchasingId env.isConnected dataset then s
    else if suspends abi env dataset then
      { purchasingId := some dataset._id, inFlight := dataset._id :: s.inFlight }
    else
      { purchasingId := purchasingIdAfter s.purchasingId
          (handlePurchase abi env dataset._id dataset.readContractId dataset.name
            dataset.price).trace,
        inFlight := s.inFlight }
  | .flowExits mongoId =>
    if mongoId ∈ s.inFlight then { purchasingId := none, inFlight := s.inFlight.erase mongoId }
    else s

/-- The view after a sequence of events, from the state after mount. -/
def ViewState.run (abi : List AbiEntry) (env : PurchaseEnv) (events : List ViewEvent) :
    ViewState :=
  events.foldl (ViewState.step abi env) { purchasingId := none, inFlight := [] }

end DatasetList

/-! ## `UploadForm.jsx` -/

namespace UploadForm

/-- The `CONTRACT_ABI` literal of `UploadForm.jsx`, as written: two entries. -/
def CONTRACT_ABI : List AbiEntry :=
  [ { inputs := [{ internalType := "uint256", name := "_id", type := "uint256" }],
      name := "buyDataset",
      outputs := [],
      stateMutability := "payable",
      type := "function" },
    { inputs := [{ internalType := "string", name := "_bucketName", type := "string" },
                 { internalType := "string", name := "_fileName", type := "string" },
                 { internalType := "uint256", name := "_price", type := "uint256" }],
      name := "listDataset",
      outputs := [],
      stateMutability := "nonpayable",
      type := "function" } ]

/-- The initial value of `formData` (line 50). -/
def initialFormData : FormData := { name := "", description := "", price := "", file := none }

/-- The JSON object `POST /api/upload` answers with. -/
structure UploadBody where
  message : Option String
  tempId : String
  bucketName : String
  fileName : String
deriving DecidableEq

/-- The `args` of a receipt event; `id` is `none` when the event has no such argument. -/
structure EventArgs where
  id : Option Nat
deriving DecidableEq

/-- One entry of `receipt.events`. In a receipt as the chain returns it, `event` is the
name of the event the contract emitted (`none` for a log without one) and `args` its
arguments; the flow reads these fields after `parseLog`. -/
structure ReceiptEvent where
  event : Option String
  args : Option EventArgs
deriving DecidableEq

/-- The transaction receipt, as far as the flow reads it: its logs, as emitted. -/
structure Receipt where
  events : List ReceiptEvent
deriving DecidableEq

/-- Whether the interface of a contract built from `abi` has an event fragment `name`. -/
def declaresEvent (abi : List AbiEntry) (name : String) : Bool :=
  abi.any (fun e => e.type = "event" ∧ e.name = name)

/-- What `tx.wait()` of an ethers v5 contract makes of one log: `event` and `args` are
set when the contract interface parses the log, that is when the ABI has the event
fragment, and stay `undefined` otherwise. -/
def parseLog (abi : List AbiEntry) (log : ReceiptEvent) : ReceiptEvent :=
  match log.event with
  | some name => if declaresEvent abi name then log else { event := none, args := none }
  | none => { event := none, args := none }

/-- The outcomes of the external calls of one upload flow. An exception is its `message`. -/
structure UploadEnv where
  /-- The hook value `useAccount().isConnected`. -/
  isConnected : Bool
  /-- Whether `useWalletClient().data` is truthy. -/
  walletClient : Bool
  /-- The hook value `useAccount().address`. -/
  address : String
  /-- The call `await fetch('/api/upload', ...)`. -/
  fetchUpload : Except String (HttpResponse UploadBody)
  /-- Lines 105-107: `Web3Provider`, `getSigner`, `new ethers.Contract`. -/
  connect : Except String Unit
  /-- The call `await contract.listDataset(bucketName, fileName, priceWei)`. -/
  listDataset : String → String → Int → Except String Unit
  /-- The call `await tx.wait()`: the receipt with its logs as emitted; the names the
  flow sees on them are those `parseLog` attaches. -/
  wait : Except String Receipt
  /-- The call `await fetch('/api/updateDatasetContractId', ...)`: the `ok` of the response. -/
  fetchUpdate : Except String Bool
  /-- The assignment `document.getElementById('file-upload').value = ''`. -/
  clearFileInput : Except String Unit

/-- The expression `event.args.id.toNumber()` (line 115) on the result of `find`:
a `TypeError` on a missing event, `args` or `id`, an overflow error from
`BigNumber.toNumber` beyond the safe integers. -/
def extractDatasetId (event : Option ReceiptEvent) : Except String Nat :=
  match event with
  | none => .error "Cannot read properties of undefined (reading 'args')"
  | some ev =>
    match ev.args with
    | none => .error "Cannot read properties of undefined (reading 'id')"
    | some args =>
      match args.id with
      | none => .error "Cannot read properties of undefined (reading 'toNumber')"
      | some id => if id ≤ 9007199254740991 then .ok id else .error "overflow"

/-- The `try` block of `handleSubmit`, lines 90-128. -/
def submitBody (abi : List AbiEntry) (env : UploadEnv) (formData : FormData) : Run Unit := do
  Run.emit (.postUpload env.address formData)
  let uploadRes ← Run.await env.fetchUpload
  if !uploadRes.ok then do
    let errorData ← Run.await uploadRes.json
    Run.fail (orElse (errorData.message.getD "") "Upload failed")
  else do
    let uploadData ← Run.await uploadRes.json
    -- List dataset on the smart contract
    Run.await env.connect
    let priceWei ← Run.await (parseEther formData.price)
    contractCall abi "listDataset"
      (.listDataset uploadData.bucketName uploadData.fileName priceWei)
      (env.listDataset uploadData.bucketName uploadData.fileName priceWei)
    Run.emit .txWait
    let receipt ← Run.await env.wait
    -- Extract dataset ID from event
    let events := receipt.events.map (parseLog abi)
    let event := events.find? (fun e => e.event = some "DatasetListed")
    let datasetId ← Run.await (extractDatasetId event)
    -- Update backend with contract dataset ID
    Run.emit (.postUpdateDatasetContractId uploadData.tempId datasetId)
    let updateOk ← Run.await env.fetchUpdate
    if !updateOk then Run.fail "Failed to update dataset ID"
    else do
      Run.emit (.toastSuccess "Dataset listed successfully!")
      Run.emit (.setFormData initialFormData)
      Run.await env.clearFileInput
      Run.emit .clearFileInput

/-- The `catch (error)` block of `handleSubmit`. -/
def submitCatch (error : String) : Run Unit := do
  Run.emit (.toastError (orElse error "Upload failed"))
  Run.emit (.consoleError error)

/-- `handleSubmit(e)` with the form holding `formData`. The ABI the contract client
is built from is a parameter; the component passes its `CONTRACT_ABI`. -/
def handleSubmit (abi : List AbiEntry) (env : UploadEnv) (formData : FormData) : Run Unit :=
  if !env.isConnected then Run.emit (.toastError "Please connect your wallet first")
  else if !env.walletClient then Run.emit (.toastError "Wallet client not available")
  else do
    Run.emit (.setIsUploading true)
    Run.tryFinally (Run.tryCatch (submitBody abi env formData) submitCatch)
      (Run.emit (.setIsUploading false))

/-- The value of the `formData` state after the effects of `trace`, from `init`. -/
def formDataAfter (init : FormData) (trace : List Effect) : FormData :=
  trace.foldl (fun cur e => match e with
    | .setFormData fd => fd
    | _ => cur) init

end UploadForm

/-! ## Predicates of the specification -/

/-- A price written as a non-negative decimal with at most 18 fractional digits:
digits, at least one, alone or followed by a dot and one to 18 digits. -/
def IsDecimalPrice (price : String) : Prop :=
  ∃ w f : List Char, (∀ c ∈ w, c.isDigit = true) ∧ (∀ c ∈ f, c.isDigit = true) ∧ w ≠ [] ∧
    f.length ≤ 18 ∧ (price.toList = w ∨ (f ≠ [] ∧ price.toList = w ++ '.' :: f))

/-! ## Sample inputs -/

/-- A purchase in which every external call succeeds: the contract stores `price` wei
for every identifier and the backend answers `POST /api/buy` with `res`. -/
def samplePurchaseEnv (price : Nat) (res : HttpResponse DatasetList.BuyBody) :
    DatasetList.PurchaseEnv :=
  { isConnected := true
    walletClient := true
    address := "0xBuyer"
    connect := .ok ()
    getDataset := fun _ =>
      .ok { bucketName := "bucket", fileName := "data.zip", price := price, owner := "0xOwner" }
    buyDataset := fun _ _ => .ok ()
    wait := .ok ()
    fetchBuy := .ok res
    decrypt := fun _ => .ok [80, 75, 3, 4]
    createObjectURL := .ok "blob:1" }

/-- A fulfillment response with the encrypted payload. -/
def sampleBuyOk : HttpResponse DatasetList.BuyBody :=
  { ok := true
    json := .ok { message := none, encryptedData := some "AAAA", encryptionKey := some "00",
                  iv := some "00" } }

/-- A fulfillment response with status 403 and a message. -/
def sampleBuyForbidden : HttpResponse DatasetList.BuyBody :=
  { ok := false
    json := .ok { message := some "Purchase not found", encryptedData := none,
                  encryptionKey := none, iv := none } }

/-- A catalog record that was never linked to an on-chain listing. -/
def sampleUnlisted : DatasetList.Dataset :=
  { _id := "a1", contractId := none, name := "Set A", description := "", price := "10",
    owner := "0xOwner" }

/-- Two catalog records with on-chain identifiers. -/
def sampleA : DatasetList.Dataset :=
  { _id := "a1", contractId := some (.num 1), name := "Set A", description := "", price := "10",
    owner := "0xOwner" }

/-- The second listed record. -/
def sampleB : DatasetList.Dataset :=
  { _id := "b2", contractId := some (.num 2), name := "Set B", description := "", price := "12",
    owner := "0xOwner" }

/-- An upload in which every external call succeeds and the receipt is `receipt`. -/
def sampleUploadEnv (receipt : UploadForm.Receipt) : UploadForm.UploadEnv :=
  { isConnected := true
    walletClient := true
    address := "0xSeller"
    fetchUpload := .ok { ok := true, json := .ok { message := none, tempId := "t1",
                                                   bucketName := "bucket", fileName := "data.zip" } }
    connect := .ok ()
    listDataset := fun _ _ _ => .ok ()
    wait := .ok receipt
    fetchUpdate := .ok true
    clearFileInput := .ok () }

/-- A filled-in upload form. -/
def sampleForm : FormData :=
  { name := "Set A", description := "rows", price := "1.5", file := some "data.zip" }

/-! ## Lemmas on decimal strings -/

theorem digitsToNat_foldl (acc : Nat) (cs : List Char) :
    cs.foldl (fun a c => 10 * a + digitVal c) acc = acc * 10 ^ cs.length + digitsToNat cs := by
  unfold digitsToNat
  induction cs generalizing acc with
  | nil => simp
  | cons c t ih =>
    simp only [List.foldl_cons, List.length_cons]
    rw [ih (10 * acc + digitVal c), ih (10 * 0 + digitVal c)]
    ring

theorem digitsToNat_nil : digitsToNat [] = 0 := rfl

theorem digitsToNat_append (a b : List Char) :
    digitsToNat (a ++ b) = digitsToNat a * 10 ^ b.length + digitsToNat b := by
  show (a ++ b).foldl _ 0 = _
  rw [List.foldl_append, digitsToNat_foldl]
  rfl

theorem digitsToNat_replicate_zero (k : Nat) : digitsToNat (List.replicate k '0') = 0 := by
  induction k with
  | zero => rfl
  | succ k ih =>
    rw [List.replicate_succ']
    rw [digitsToNat_append, ih]
    rfl

theorem digitsToNat_append_zeros (a : List Char) (k : Nat) :
    digitsToNat (a ++ List.replicate k '0') = digitsToNat a * 10 ^ k := by
  rw [digitsToNat_append, digitsToNat_replicate_zero]
  simp

theorem digitsToNat_zeros_append (a : List Char) (k : Nat) :
    digitsToNat (List.replicate k '0' ++ a) = digitsToNat a := by
  rw [digitsToNat_append, digitsToNat_replicate_zero]
  simp

/-- A decimal digit is a character with code 48 to 57. -/
theorem isDigit_iff (c : Char) : c.isDigit = true ↔ 48 ≤ c.toNat ∧ c.toNat ≤ 57 := by
  simp [Char.isDigit, Char.toNat, UInt32.le_def, Fin.le_def]
  rfl

theorem digitVal_le (c : Char) (h : c.isDigit = true) : digitVal c ≤ 9 := by
  rw [isDigit_iff] at h
  unfold digitVal
  omega

theorem digitsToNat_lt (cs : List Char) (h : ∀ c ∈ cs, c.isDigit = true) :
    digitsToNat cs < 10 ^ cs.length := by
  induction cs using List.reverseRecOn with
  | nil => simp [digitsToNat]
  | append_singleton l c ih =>
    have hl : ∀ c ∈ l, c.isDigit = true := fun x hx => h x (List.mem_append_left _ hx)
    have hc := digitVal_le c (h c (by simp))
    have := ih hl
    rw [digitsToNat_append]
    simp only [List.length_append, List.length_singleton, pow_succ, pow_zero, mul_one]
    have h1 : digitsToNat [c] = digitVal c := by simp [digitsToNat]
    rw [h1]
    omega

theorem digitChar_spec : ∀ m, m < 10 →
    (Nat.digitChar m).isDigit = true ∧ digitVal (Nat.digitChar m) = m := by
  decide

/-- The digits `Nat.toDigitsCore` puts in front of its accumulator. -/
theorem toDigitsCore_spec (fuel : Nat) : ∀ (n : Nat) (ds : List Char), n < fuel →
    ∃ body : List Char, Nat.toDigitsCore 10 fuel n ds = body ++ ds ∧
      (∀ c ∈ body, c.isDigit = true) ∧ digitsToNat body = n ∧ body ≠ [] ∧
      (∀ k, 0 < k → n < 10 ^ k → body.length ≤ k) := by
  induction fuel with
  | zero => intro n ds h; omega
  | succ f ih =>
    intro n ds hn
    have hd := digitChar_spec (n % 10) (Nat.mod_lt _ (by decide))
    unfold Nat.toDigitsCore
    by_cases h0 : n / 10 = 0
    · simp only [h0, if_true]
      refine ⟨[Nat.digitChar (n % 10)], rfl, ?_, ?_, by simp, ?_⟩
      · intro c hc
        simp at hc
        rw [hc]
        exact hd.1
      · have : digitsToNat [Nat.digitChar (n % 10)] = digitVal (Nat.digitChar (n % 10)) := by
          simp [digitsToNat]
        rw [this, hd.2]
        omega
      · intro k hk _
        simpa using hk
    · simp only [h0, if_false]
      have hlt : n / 10 < f := by omega
      obtain ⟨body, hb, hdig, hval, hne, hlen⟩ := ih (n / 10) (Nat.digitChar (n % 10) :: ds) hlt
      refine ⟨body ++ [Nat.digitChar (n % 10)], ?_, ?_, ?_, by simp, ?_⟩
      · rw [hb]
        simp
      · intro c hc
        rcases List.mem_append.mp hc with h | h
        · exact hdig c h
        · simp at h
          rw [h]
          exact hd.1
      · rw [digitsToNat_append, hval]
        have : digitsToNat [Nat.digitChar (n % 10)] = digitVal (Nat.digitChar (n % 10)) := by
          simp [digitsToNat]
        rw [this, hd.2]
        simp
        omega
      · intro k hk hnk
        cases k with
        | zero => omega
        | succ k =>
          have hk0 : 0 < k := by
            rcases Nat.eq_zero_or_pos k with h | h
            · subst h
              simp at hnk
              omega
            · exact h
          have : n / 10 < 10 ^ k := by
            rw [pow_succ] at hnk
            omega
          have := hlen k hk0 this
          simp
          omega

theorem toDigits_spec (n : Nat) :
    (∀ c ∈ Nat.toDigits 10 n, c.isDigit = true) ∧ digitsToNat (Nat.toDigits 10 n) = n ∧
    Nat.toDigits 10 n ≠ [] ∧ (∀ k, 0 < k → n < 10 ^ k → (Nat.toDigits 10 n).length ≤ k) := by
  obtain ⟨body, hb, h⟩ := toDigitsCore_spec (n + 1) n [] (Nat.lt_succ_self n)
  have : Nat.toDigits 10 n = body := by
    unfold Nat.toDigits
    rw [hb]
    simp
  rw [this]
  exact h

/-- A string is what is left without its trailing zeros, followed by zeros. -/
theorem dropTrailingZeros_spec (f : List Char) :
    ∃ j, f = dropTrailingZeros f ++ List.replicate j '0' := by
  unfold dropTrailingZeros
  induction f using List.reverseRecOn with
  | nil => exact ⟨0, by simp⟩
  | append_singleton l c ih =>
    by_cases hc : c = '0'
    · obtain ⟨j, hj⟩ := ih
      refine ⟨j + 1, ?_⟩
      rw [List.rdropWhile_concat_pos _ _ _ (by simpa using hc)]
      rw [List.replicate_succ', ← List.append_assoc, ← hj, hc]
    · refine ⟨0, ?_⟩
      rw [List.rdropWhile_concat_neg _ _ _ (by simpa using hc)]
      simp

theorem dropTrailingZeros_digits (f : List Char) (h : ∀ c ∈ f, c.isDigit = true) :
    ∀ c ∈ dropTrailingZeros f, c.isDigit = true := by
  intro c hc
  exact h c ((List.rdropWhile_prefix _ _).subset hc)

theorem dropTrailingZeros_idem (f : List Char) :
    dropTrailingZeros (dropTrailingZeros f) = dropTrailingZeros f :=
  List.rdropWhile_idempotent _ _

theorem isDigit_ne_dot (c : Char) (h : c.isDigit = true) : c ≠ '.' := by
  intro hc
  subst hc
  exact absurd h (by decide)

theorem takeWhile_digits (a rest : List Char) (ha : ∀ c ∈ a, c.isDigit = true)
    (hr : rest = [] ∨ rest.head? = some '.') :
    (a ++ rest).takeWhile Char.isDigit = a ∧ (a ++ rest).dropWhile Char.isDigit = rest := by
  rw [List.takeWhile_append_of_pos ha, List.dropWhile_append_of_pos ha]
  rcases hr with h | h
  · subst h
    simp
  · cases rest with
    | nil => simp
    | cons c t =>
      simp at h
      subst h
      simp [List.takeWhile, List.dropWhile, show Char.isDigit '.' = false from by decide]

theorem head_append_digit_or_dot (w rest : List Char) (hw : ∀ c ∈ w, c.isDigit = true)
    (hr : rest.head? = some '.') :
    ∃ c t, w ++ rest = c :: t ∧ (c.isDigit = true ∨ c = '.') := by
  cases w with
  | nil =>
    cases rest with
    | nil => simp at hr
    | cons c t =>
      simp at hr
      exact ⟨c, t, rfl, Or.inr hr⟩
  | cons c t => exact ⟨c, t ++ rest, rfl, Or.inl (hw c (List.mem_cons_self _ _))⟩

theorem not_infinity_prefix (c : Char) (t : List Char) (hc : c.isDigit = true ∨ c = '.') :
    "Infinity".toList.isPrefixOf (c :: t) = false := by
  have hne : ('I' == c) = false := by
    rcases hc with h | h
    · rw [beq_eq_false_iff_ne]
      intro hI
      subst hI
      exact absurd h (by decide)
    · subst h
      decide
  show ('I' :: "nfinity".toList).isPrefixOf (c :: t) = false
  simp [List.isPrefixOf, hne]

/-- The Number `parseFloat` reads from digits, a dot and digits. -/
theorem parseUnsigned_dot (negative : Bool) (w f : List Char)
    (hw : ∀ c ∈ w, c.isDigit = true) (hf : ∀ c ∈ f, c.isDigit = true)
    (hne : ¬ (w = [] ∧ f = [])) :
    parseUnsigned negative (w ++ '.' :: f) =
      toNumber (decimalValue negative (digitsToNat (w ++ f)) (-(f.length : Int))) := by
  obtain ⟨c, t, hct, hc⟩ := head_append_digit_or_dot w ('.' :: f) hw rfl
  have hinf := not_infinity_prefix c t hc
  rw [← hct] at hinf
  have h1 := takeWhile_digits w ('.' :: f) hw (Or.inr rfl)
  have h2 := takeWhile_digits f [] hf (Or.inl rfl)
  simp only [List.append_nil] at h2
  unfold parseUnsigned
  simp only [hinf, h1.1, h1.2, List.head?_cons, List.tail_cons, h2.1, h2.2, decide_True,
    if_true, Bool.false_eq_true, if_false]
  rw [if_neg hne]
  simp [exponentPart]

/-- The Number `parseFloat` reads from digits alone. -/
theorem parseUnsigned_int (negative : Bool) (w : List Char)
    (hw : ∀ c ∈ w, c.isDigit = true) (hne : w ≠ []) :
    parseUnsigned negative w = toNumber (decimalValue negative (digitsToNat w) 0) := by
  obtain ⟨c, t, hct⟩ : ∃ c t, w = c :: t := by
    cases w with
    | nil => exact absurd rfl hne
    | cons c t => exact ⟨c, t, rfl⟩
  have hinf := not_infinity_prefix c t (Or.inl (hw c (by rw [hct]; exact List.mem_cons_self _ _)))
  rw [← hct] at hinf
  have h1 := takeWhile_digits w [] hw (Or.inl rfl)
  simp only [List.append_nil] at h1
  unfold parseUnsigned
  simp only [hinf, h1.1, h1.2, List.head?_nil, Bool.false_eq_true, if_false]
  simp [hne, exponentPart]

theorem not_whiteSpace (c : Char) (hc : c.isDigit = true ∨ c = '.' ∨ c = '-') :
    isWhiteSpace c = false := by
  rcases hc with h | h | h
  · rw [isDigit_iff] at h
    simp only [isWhiteSpace, decide_eq_false_iff_not, List.mem_cons, List.mem_singleton,
      List.not_mem_nil, or_false]
    omega
  · subst h
    decide
  · subst h
    decide

theorem parseFloatChars_unsigned (c : Char) (t : List Char) (hc : c.isDigit = true ∨ c = '.') :
    parseFloatChars (c :: t) = parseUnsigned false (c :: t) := by
  have hws : isWhiteSpace c = false :=
    not_whiteSpace c (hc.elim Or.inl (fun h => Or.inr (Or.inl h)))
  have h1 : c ≠ '-' := by
    rcases hc with h | h
    · intro hc
      subst hc
      exact absurd h (by decide)
    · subst h
      decide
  have h2 : c ≠ '+' := by
    rcases hc with h | h
    · intro hc
      subst hc
      exact absurd h (by decide)
    · subst h
      decide
  unfold parseFloatChars
  simp [List.dropWhile, hws, h1, h2]

theorem parseFloatChars_minus (t : List Char) :
    parseFloatChars ('-' :: t) = parseUnsigned true t := by
  have hws : isWhiteSpace '-' = false := by decide
  unfold parseFloatChars
  simp [List.dropWhile, hws]

theorem splitDot_cons (c : Char) (cs : List Char) :
    splitDot (c :: cs) =
      if c = '.' then [] :: splitDot cs
      else
        match splitDot cs with
        | [] => [[c]]
        | h :: t => (c :: h) :: t := by
  rw [splitDot]

theorem splitDot_ne_nil (cs : List Char) : splitDot cs ≠ [] := by
  cases cs with
  | nil => simp [splitDot]
  | cons c t =>
    rw [splitDot_cons]
    split
    · simp
    · split <;> simp

theorem splitDot_no_dot (w : List Char) (hw : ∀ c ∈ w, c ≠ '.') : splitDot w = [w] := by
  induction w with
  | nil => rfl
  | cons c t ih =>
    have hc : c ≠ '.' := hw c (List.mem_cons_self _ _)
    have ht := ih (fun x hx => hw x (List.mem_cons_of_mem _ hx))
    rw [splitDot_cons]
    simp [hc, ht]

theorem splitDot_append_dot (w f : List Char) (hw : ∀ c ∈ w, c ≠ '.') :
    splitDot (w ++ '.' :: f) = w :: splitDot f := by
  induction w with
  | nil => simp [splitDot]
  | cons c t ih =>
    have hc : c ≠ '.' := hw c (List.mem_cons_self _ _)
    have ht := ih (fun x hx => hw x (List.mem_cons_of_mem _ hx))
    show splitDot (c :: (t ++ '.' :: f)) = _
    rw [splitDot_cons]
    simp [hc, ht]

theorem splitDot_length_le_one (f : List Char) (h : (splitDot f).length ≤ 1) :
    ∀ c ∈ f, c ≠ '.' := by
  induction f with
  | nil => simp
  | cons c t ih =>
    have hne := splitDot_ne_nil t
    by_cases hc : c = '.'
    · exfalso
      rw [splitDot_cons] at h
      simp only [hc, if_true, List.length_cons] at h
      have : 0 < (splitDot t).length := List.length_pos.mpr hne
      omega
    · have hlen : (splitDot (c :: t)).length = (splitDot t).length := by
        rw [splitDot_cons]
        simp only [hc, if_false]
        cases hs : splitDot t with
        | nil => exact absurd hs hne
        | cons a b => simp
      rw [hlen] at h
      intro x hx
      rcases List.mem_cons.mp hx with hx | hx
      · rw [hx]; exact hc
      · exact ih h x hx

/-- A string of digits and dots that `split` cuts into at most two parts is a string of
digits, or digits, one dot and digits. -/
theorem digits_or_dot_shape (body : List Char)
    (hall : ∀ c ∈ body, c.isDigit = true ∨ c = '.') (hlen : (splitDot body).length ≤ 2) :
    (∀ c ∈ body, c.isDigit = true) ∨
    ∃ w f, body = w ++ '.' :: f ∧ (∀ c ∈ w, c.isDigit = true) ∧ (∀ c ∈ f, c.isDigit = true) := by
  by_cases hd : ∀ c ∈ body, c.isDigit = true
  · exact Or.inl hd
  · right
    have hsplit := (List.takeWhile_append_dropWhile Char.isDigit body).symm
    have hw : ∀ c ∈ body.takeWhile Char.isDigit, c.isDigit = true :=
      fun c hc => (List.mem_takeWhile_imp hc)
    cases hr : body.dropWhile Char.isDigit with
    | nil =>
      exfalso
      apply hd
      rw [hr, List.append_nil] at hsplit
      rw [hsplit]
      exact hw
    | cons c f =>
      have hcn : c.isDigit = false := by
        have := List.head_dropWhile_not Char.isDigit body (by rw [hr]; simp)
        simpa [hr] using this
      have hcmem : c ∈ body := by
        rw [hsplit, hr]
        simp
      have hcdot : c = '.' := by
        rcases hall c hcmem with h | h
        · rw [h] at hcn
          cases hcn
        · exact h
      subst hcdot
      rw [hr] at hsplit
      have hwd : ∀ c ∈ body.takeWhile Char.isDigit, c ≠ '.' :=
        fun c hc => isDigit_ne_dot c (hw c hc)
      have hs := splitDot_append_dot _ f hwd
      rw [← hsplit] at hs
      rw [hs] at hlen
      simp only [List.length_cons] at hlen
      have hf := splitDot_length_le_one f (by omega)
      refine ⟨_, f, hsplit, hw, ?_⟩
      intro x hx
      have hxb : x ∈ body := by
        rw [hsplit]
        simp [hx]
      rcases hall x hxb with h | h
      · exact h
      · exact absurd h (hf x hx)

theorem dropTrailingZeros_or_zero (f : List Char) :
    dropTrailingZeros (if f = [] then ['0'] else f) = dropTrailingZeros f := by
  by_cases h : f = []
  · subst h
    simp [dropTrailingZeros, List.rdropWhile]
  · simp [h]

theorem digitsToNat_or_zero (w : List Char) :
    digitsToNat (if w = [] then ['0'] else w) = digitsToNat w := by
  by_cases h : w = []
  · subst h
    simp [digitsToNat, digitVal]
  · simp [h]

theorem digitsToNat_padRight (g : List Char) (d : Nat) :
    digitsToNat (padRight (if g = [] then ['0'] else g) d) =
      digitsToNat g * 10 ^ (d - g.length) := by
  unfold padRight
  rw [digitsToNat_append_zeros, digitsToNat_or_zero]
  by_cases h : g = []
  · subst h
    simp [digitsToNat]
  · simp [h]

theorem head_ne_minus (c : Char) (hc : c.isDigit = true ∨ c = '.') : c ≠ '-' := by
  rcases hc with h | h
  · intro hc
    subst hc
    exact absurd h (by decide)
  · subst h
    decide

/-- What `parseFixed` returns on digits, a dot and digits. -/
theorem parseFixed_dot (w f : List Char) (d : Nat)
    (hw : ∀ c ∈ w, c.isDigit = true) (hf : ∀ c ∈ f, c.isDigit = true)
    (hne : ¬ (w = [] ∧ f = [])) (hlen : (dropTrailingZeros f).length ≤ d) :
    parseFixed (w ++ '.' :: f) d =
      .ok ((digitsToNat w : Int) * 10 ^ d +
        ((digitsToNat (dropTrailingZeros f) * 10 ^ (d - (dropTrailingZeros f).length) : Nat)
          : Int)) := by
  obtain ⟨c, t, hct, hc⟩ := head_append_digit_or_dot w ('.' :: f) hw rfl
  have hhead : ¬ ((w ++ '.' :: f).head? = some '-') := by
    rw [hct]
    simpa using head_ne_minus c hc
  have hnil : w ++ '.' :: f ≠ [] := by simp
  have hall : (w ++ '.' :: f).all (fun c => c.isDigit || decide (c = '.')) = true := by
    rw [List.all_eq_true]
    intro x hx
    rcases List.mem_append.mp hx with h | h
    · simp [hw x h]
    · rcases List.mem_cons.mp h with h | h
      · simp [h]
      · simp [hf x h]
  have hdot : w ++ '.' :: f ≠ ['.'] := by
    intro h
    apply hne
    cases w with
    | nil => simpa using h
    | cons a b =>
      exfalso
      simp at h
  have hsplit : splitDot (w ++ '.' :: f) = [w, f] := by
    rw [splitDot_append_dot w f (fun c hc => isDigit_ne_dot c (hw c hc)),
      splitDot_no_dot f (fun c hc => isDigit_ne_dot c (hf c hc))]
  have hlen2 : ¬ (d < (dropTrailingZeros f).length) := by omega
  unfold parseFixed
  simp only [hhead, decide_False, Bool.false_eq_true, if_false, hnil, hall, not_true_eq_false,
    or_self, hdot, hsplit, List.length_cons, List.length_nil, List.headD_cons, List.tail_cons,
    List.head?_cons, Option.getD_some, dropTrailingZeros_or_zero, hlen2, digitsToNat_padRight,
    digitsToNat_or_zero]
  simp

/-- What `parseFixed` returns on digits alone. -/
theorem parseFixed_int (w : List Char) (d : Nat) (hw : ∀ c ∈ w, c.isDigit = true)
    (hne : w ≠ []) :
    parseFixed w d = .ok ((digitsToNat w : Int) * 10 ^ d) := by
  obtain ⟨c, t, hct⟩ : ∃ c t, w = c :: t := by
    cases w with
    | nil => exact absurd rfl hne
    | cons c t => exact ⟨c, t, rfl⟩
  have hhead : ¬ (w.head? = some '-') := by
    rw [hct]
    simpa using head_ne_minus c (Or.inl (hw c (by rw [hct]; exact List.mem_cons_self _ _)))
  have hall : w.all (fun c => c.isDigit || decide (c = '.')) = true := by
    rw [List.all_eq_true]
    intro x hx
    simp [hw x hx]
  have hdot : w ≠ ['.'] := by
    intro h
    have := hw '.' (by rw [h]; simp)
    exact absurd this (by decide)
  have hsplit : splitDot w = [w] := splitDot_no_dot w (fun c hc => isDigit_ne_dot c (hw c hc))
  have hz : dropTrailingZeros ['0'] = [] := by simp [dropTrailingZeros, List.rdropWhile]
  unfold parseFixed
  simp only [hhead, decide_False, Bool.false_eq_true, if_false, hne, hall, not_true_eq_false,
    or_self, hdot, hsplit, List.length_cons, List.length_nil, List.headD_cons, List.tail_cons,
    List.head?_nil, Option.getD_none, if_true, hz, digitsToNat_or_zero]
  have hp : digitsToNat (padRight ['0'] d) = 0 := by
    have := digitsToNat_padRight [] d
    simpa [digitsToNat] using this
  simp [hp]

/-- A leading minus sign negates what `parseFixed` returns. -/
theorem parseFixed_minus (body : List Char) (d : Nat) (hb : body.head? ≠ some '-') :
    parseFixed ('-' :: body) d =
      match parseFixed body d with
      | .ok v => .ok (v * (-1))
      | .error e => .error e := by
  unfold parseFixed
  simp only [List.head?_cons, decide_True, if_true, List.tail_cons, hb, decide_False,
    Bool.false_eq_true, if_false]
  split_ifs <;> rfl

theorem decimalValue_neg_exp (negative : Bool) (n m : Nat) :
    decimalValue negative n (-(m : Int)) =
      mkRat (if negative then -(n : Int) else (n : Int)) (10 ^ m) := by
  unfold decimalValue
  cases m with
  | zero => simp
  | succ m =>
    have h : ¬ (0 ≤ -((m + 1 : Nat) : Int)) := by omega
    have h2 : (- -((m + 1 : Nat) : Int)).toNat = m + 1 := by omega
    simp only [h, if_false, h2]

theorem decimalValue_zero_exp (negative : Bool) (n : Nat) :
    decimalValue negative n 0 = mkRat (if negative then -(n : Int) else (n : Int)) (10 ^ 0) := by
  have := decimalValue_neg_exp negative n 0
  simpa using this

theorem toNumber_ne_nan (q : ℚ) : toNumber q ≠ JsNumber.nan := by
  unfold toNumber
  simp only
  split_ifs <;> simp

theorem strictNe_self (x : JsNumber) (h : x ≠ JsNumber.nan) : x.strictNe x = false := by
  cases x <;> simp [JsNumber.strictNe] at *

/-- The decimal `w.f` and its value in units of `10^-d` are the same rational. -/
theorem mkRat_decimal_eq (sign : Int) (W F G lenF lenG j d : Nat) (hF : F = G * 10 ^ j)
    (hlen : lenF = lenG + j) (hd : lenG ≤ d) :
    mkRat (sign * ((W * 10 ^ lenF + F : Nat) : Int)) (10 ^ lenF) =
      mkRat (sign * ((W : Int) * 10 ^ d + ((G * 10 ^ (d - lenG) : Nat) : Int))) (10 ^ d) := by
  rw [Rat.mkRat_eq_iff (by positivity) (by positivity)]
  obtain ⟨e, rfl⟩ : ∃ e, d = lenG + e := ⟨d - lenG, by omega⟩
  subst hF hlen
  simp only [Nat.add_sub_cancel_left]
  push_cast
  ring

/-- The strings `parseFixed` accepts without a sign: digits, or digits, a dot and digits
of which at most `d` count. -/
theorem parseFixed_ok_unsigned (body : List Char) (d : Nat) (v : Int)
    (hb : body.head? ≠ some '-') (h : parseFixed body d = .ok v) :
    ((∀ c ∈ body, c.isDigit = true) ∧ body ≠ []) ∨
    ∃ w f, body = w ++ '.' :: f ∧ (∀ c ∈ w, c.isDigit = true) ∧ (∀ c ∈ f, c.isDigit = true) ∧
      ¬ (w = [] ∧ f = []) ∧ (dropTrailingZeros f).length ≤ d := by
  unfold parseFixed at h
  simp only [hb, decide_False, Bool.false_eq_true, if_false, dropTrailingZeros_or_zero] at h
  by_cases h1 : (body = [] ∨ ¬ body.all (fun c => c.isDigit || decide (c = '.')) = true)
  · rw [if_pos h1] at h
    cases h
  rw [if_neg h1] at h
  by_cases h2 : body = ['.']
  · rw [if_pos h2] at h
    cases h
  rw [if_neg h2] at h
  by_cases h3 : 2 < (splitDot body).length
  · rw [if_pos h3] at h
    cases h
  rw [if_neg h3] at h
  by_cases h4 : d < (dropTrailingZeros ((splitDot body).tail.head?.getD [])).length
  · rw [if_pos h4] at h
    cases h
  have hnil : body ≠ [] := fun hn => h1 (Or.inl hn)
  have hall : ∀ c ∈ body, c.isDigit = true ∨ c = '.' := by
    have : body.all (fun c => c.isDigit || decide (c = '.')) = true := by
      by_contra hc
      exact h1 (Or.inr hc)
    rw [List.all_eq_true] at this
    intro c hc
    simpa using this c hc
  rcases digits_or_dot_shape body hall (by omega) with hd | ⟨w, f, hwf, hw, hf⟩
  · exact Or.inl ⟨hd, hnil⟩
  · right
    refine ⟨w, f, hwf, hw, hf, ?_, ?_⟩
    · rintro ⟨hw0, hf0⟩
      apply h2
      rw [hwf, hw0, hf0]
      rfl
    · have hsplit : splitDot body = [w, f] := by
        rw [hwf, splitDot_append_dot w f (fun c hc => isDigit_ne_dot c (hw c hc)),
          splitDot_no_dot f (fun c hc => isDigit_ne_dot c (hf c hc))]
      rw [hsplit] at h4
      simp only [List.tail_cons, List.head?_cons, Option.getD_some] at h4
      omega

/-- Unsigned case of `parseFloatChars_of_parseFixed`. -/
theorem parseUnsigned_of_parseFixed (negative : Bool) (body : List Char) (d : Nat) (v : Int)
    (hb : body.head? ≠ some '-') (h : parseFixed body d = .ok v) :
    parseUnsigned negative body =
      toNumber (mkRat (if negative then v * (-1) else v) (10 ^ d)) ∧
    ∃ c t, body = c :: t ∧ (c.isDigit = true ∨ c = '.') := by
  rcases parseFixed_ok_unsigned body d v hb h with ⟨hd, hnil⟩ | ⟨w, f, hwf, hw, hf, hne, hlen⟩
  · have hv := parseFixed_int body d hd hnil
    rw [h] at hv
    injection hv with hv
    constructor
    · rw [parseUnsigned_int negative body hd hnil, decimalValue_zero_exp]
      congr 1
      have := mkRat_decimal_eq (if negative then -1 else 1) (digitsToNat body) 0 0 0 0 0 d
        (by simp) (by simp) (by omega)
      simp only [pow_zero, mul_one, add_zero, Nat.cast_zero, zero_mul] at this
      rw [hv]
      cases negative <;> simpa using this
    · cases body with
      | nil => exact absurd rfl hnil
      | cons c t => exact ⟨c, t, rfl, Or.inl (hd c (List.mem_cons_self _ _))⟩
  · have hv := parseFixed_dot w f d hw hf hne hlen
    rw [← hwf, h] at hv
    injection hv with hv
    obtain ⟨j, hj⟩ := dropTrailingZeros_spec f
    constructor
    · rw [hwf, parseUnsigned_dot negative w f hw hf hne, decimalValue_neg_exp]
      congr 1
      have hF : digitsToNat f = digitsToNat (dropTrailingZeros f) * 10 ^ j := by
        conv_lhs => rw [hj]
        exact digitsToNat_append_zeros _ _
      have hL : f.length = (dropTrailingZeros f).length + j := by
        conv_lhs => rw [hj]
        simp
      have := mkRat_decimal_eq (if negative then -1 else 1) (digitsToNat w) (digitsToNat f)
        (digitsToNat (dropTrailingZeros f)) f.length (dropTrailingZeros f).length j d hF hL hlen
      rw [digitsToNat_append, hv]
      cases negative
      · simpa using this
      · simp only [if_true] at this ⊢
        rw [show -((digitsToNat w * 10 ^ f.length + digitsToNat f : Nat) : Int)
          = -1 * ((digitsToNat w * 10 ^ f.length + digitsToNat f : Nat) : Int) by ring, this]
        congr 1
        ring
    · rw [hwf]
      exact head_append_digit_or_dot w ('.' :: f) hw rfl

/-- What `parseFixed` accepts, `parseFloat` reads in full: when `parseFixed` returns `v`
on a string, `parseFloat` returns on it the Number value of `v / 10^d`. -/
theorem parseFloatChars_of_parseFixed (s : List Char) (d : Nat) (v : Int)
    (h : parseFixed s d = .ok v) : parseFloatChars s = toNumber (mkRat v (10 ^ d)) := by
  by_cases hs : s.head? = some '-'
  · obtain ⟨body, rfl⟩ : ∃ body, s = '-' :: body := by
      cases s with
      | nil => simp at hs
      | cons c t =>
        simp at hs
        exact ⟨t, by rw [hs]⟩
    by_cases hb : body.head? = some '-'
    · exfalso
      unfold parseFixed at h
      have hall : ¬ (body.all (fun c => c.isDigit || decide (c = '.')) = true) := by
        cases body with
        | nil => simp at hb
        | cons c t =>
          simp at hb
          subst hb
          simp
      simp [hall] at h
    · rw [parseFixed_minus body d hb] at h
      cases hp : parseFixed body d with
      | error e => rw [hp] at h; cases h
      | ok v1 =>
        rw [hp] at h
        injection h with h
        have := (parseUnsigned_of_parseFixed true body d v1 hb hp).1
        rw [parseFloatChars_minus, this, ← h]
        rfl
  · obtain ⟨hu, c, t, hct, hc⟩ := parseUnsigned_of_parseFixed false s d v hs h
    rw [hct, parseFloatChars_unsigned c t hc, ← hct, hu]
    rfl

theorem stripFraction_spec (F : List Char) (hF : ∀ c ∈ F, c.isDigit = true) :
    (∀ c ∈ stripFraction F, c.isDigit = true) ∧ stripFraction F ≠ [] ∧
    dropTrailingZeros (stripFraction F) = dropTrailingZeros F := by
  unfold stripFraction
  by_cases h : dropTrailingZeros F = []
  · simp only [h, if_true]
    refine ⟨?_, by simp, ?_⟩
    · intro c hc
      simp at hc
      subst hc
      decide
    · simp [dropTrailingZeros, List.rdropWhile]
  · simp only [h, if_false]
    exact ⟨dropTrailingZeros_digits F hF, h, dropTrailingZeros_idem F⟩

/-- The fraction digits of `formatFixed`: exactly `d` digits with value `m % 10^d`. -/
theorem padLeft_spec (m d : Nat) (hd : 0 < d) :
    (∀ c ∈ padLeft (Nat.toDigits 10 (m % 10 ^ d)) d, c.isDigit = true) ∧
    (padLeft (Nat.toDigits 10 (m % 10 ^ d)) d).length = d ∧
    digitsToNat (padLeft (Nat.toDigits 10 (m % 10 ^ d)) d) = m % 10 ^ d := by
  obtain ⟨hdig, hval, _, hlen⟩ := toDigits_spec (m % 10 ^ d)
  have hl := hlen d hd (Nat.mod_lt _ (by positivity))
  unfold padLeft
  refine ⟨?_, ?_, ?_⟩
  · intro c hc
    rcases List.mem_append.mp hc with h | h
    · rw [List.mem_replicate] at h
      rw [h.2]
      decide
    · exact hdig c h
  · simp
    omega
  · rw [digitsToNat_zeros_append, hval]

/-- Round trip on non-negative amounts: `parseFixed` reads back what `formatFixed` wrote. -/
theorem parseFixed_formatFixed_nat (m d : Nat) :
    parseFixed (formatFixed (m : Int) d) d = .ok (m : Int) := by
  obtain ⟨hWdig, hWval, hWne, _⟩ := toDigits_spec (m / 10 ^ d)
  have hneg : ¬ ((m : Int) < 0) := by omega
  unfold formatFixed
  simp only [hneg, decide_False, Bool.false_eq_true, if_false, Int.natAbs_ofNat]
  by_cases hd : d = 0
  · subst hd
    simp only [if_true, pow_zero, Nat.div_one]
    have := toDigits_spec m
    rw [parseFixed_int _ 0 this.1 this.2.2.1, this.2.1]
    simp
  · simp only [hd, if_false]
    obtain ⟨hFdig, hFlen, hFval⟩ := padLeft_spec m d (Nat.pos_of_ne_zero hd)
    obtain ⟨hSdig, hSne, hSdrop⟩ := stripFraction_spec _ hFdig
    obtain ⟨j, hj⟩ := dropTrailingZeros_spec (padLeft (Nat.toDigits 10 (m % 10 ^ d)) d)
    have hGlen : (dropTrailingZeros (padLeft (Nat.toDigits 10 (m % 10 ^ d)) d)).length + j = d := by
      have := congrArg List.length hj
      simp only [List.length_append, List.length_replicate, hFlen] at this
      omega
    have hGval : digitsToNat (dropTrailingZeros (padLeft (Nat.toDigits 10 (m % 10 ^ d)) d))
        * 10 ^ j = m % 10 ^ d := by
      rw [← digitsToNat_append_zeros, ← hj, hFval]
    rw [parseFixed_dot _ _ d hWdig hSdig (fun h => hWne h.1) (by rw [hSdrop]; omega)]
    rw [hSdrop, hWval]
    have hj2 : d - (dropTrailingZeros (padLeft (Nat.toDigits 10 (m % 10 ^ d)) d)).length = j := by
      omega
    rw [hj2, hGval]
    congr 1
    have := Nat.div_add_mod' m (10 ^ d)
    exact_mod_cast this

theorem formatFixed_nat_head (m d : Nat) : (formatFixed (m : Int) d).head? ≠ some '-' := by
  obtain ⟨hWdig, _, hWne, _⟩ := toDigits_spec (m / 10 ^ d)
  have hneg : ¬ ((m : Int) < 0) := by omega
  unfold formatFixed
  simp only [hneg, decide_False, Bool.false_eq_true, if_false, Int.natAbs_ofNat]
  cases hW : Nat.toDigits 10 (m / 10 ^ d) with
  | nil => exact absurd hW hWne
  | cons c t =>
    have hc : c.isDigit = true := hWdig c (by rw [hW]; exact List.mem_cons_self _ _)
    have hne := head_ne_minus c (Or.inl hc)
    split <;> simpa using hne

/-- Round trip: `parseFixed` reads back what `formatFixed` wrote. -/
theorem parseFixed_formatFixed (n : Int) (d : Nat) :
    parseFixed (formatFixed n d) d = .ok n := by
  by_cases hn : n < 0
  · have hpos := parseFixed_formatFixed_nat n.natAbs d
    have hnn : ¬ (((n.natAbs : Nat) : Int) < 0) := by omega
    have hf : formatFixed n d = '-' :: formatFixed (n.natAbs : Int) d := by
      unfold formatFixed
      simp only [hn, decide_True, if_true, hnn, decide_False, Bool.false_eq_true, if_false,
        Int.natAbs_ofNat]
    rw [hf, parseFixed_minus _ d (formatFixed_nat_head _ d), hpos]
    show Except.ok (((n.natAbs : Nat) : Int) * (-1)) = Except.ok n
    congr 1
    omega
  · have : n = ((n.natAbs : Nat) : Int) := by omega
    rw [this]
    exact parseFixed_formatFixed_nat n.natAbs d

/-! ## Lemmas on flows -/

theorem orElse_ne_empty (a b : String) (hb : b ≠ "") : orElse a b ≠ "" := by
  unfold orElse
  split <;> assumption

theorem orElse_of_ne (a b : String) (ha : a ≠ "") : orElse a b = a := by
  simp [orElse, ha]

theorem append_ne_empty_left (a b : String) (ha : a ≠ "") : a ++ b ≠ "" := by
  intro h
  apply ha
  have hlen := congrArg String.length h
  simp at hlen
  exact String.ext (by simpa using List.length_eq_zero.mp (by simpa using hlen.1))

namespace Run

variable {α β : Type} {P : Effect → Prop}

theorem forall_pure (a : α) : ∀ e ∈ (pure a : Run α).trace, P e := by
  intro e he
  cases he

theorem forall_emit {e0 : Effect} (h : P e0) : ∀ e ∈ (emit e0).trace, P e := by
  intro e he
  simp [emit] at he
  subst he
  exact h

theorem forall_fail (m : String) : ∀ e ∈ (fail m : Run α).trace, P e := by
  intro e he
  cases he

theorem forall_await (o : Except String α) : ∀ e ∈ (await o).trace, P e := by
  intro e he
  cases he

theorem forall_bind {r : Run α} {f : α → Run β} (h1 : ∀ e ∈ r.trace, P e)
    (h2 : ∀ a, ∀ e ∈ (f a).trace, P e) : ∀ e ∈ (r >>= f).trace, P e := by
  intro e he
  show P e
  change e ∈ (Run.bind r f).trace at he
  unfold Run.bind at he
  split at he
  · exact h1 e he
  · rcases List.mem_append.mp he with h | h
    · exact h1 e h
    · exact h2 _ e h

theorem forall_bind_ok {r : Run α} {f : α → Run β} (h1 : ∀ e ∈ r.trace, P e)
    (h2 : ∀ a, r.result = .ok a → ∀ e ∈ (f a).trace, P e) : ∀ e ∈ (r >>= f).trace, P e := by
  intro e he
  show P e
  change e ∈ (Run.bind r f).trace at he
  unfold Run.bind at he
  split at he
  · exact h1 e he
  · next a ha =>
    rcases List.mem_append.mp he with h | h
    · exact h1 e h
    · exact h2 a ha e h

theorem forall_tryCatch {body : Run α} {handler : String → Run α}
    (h1 : ∀ e ∈ body.trace, P e) (h2 : ∀ m, ∀ e ∈ (handler m).trace, P e) :
    ∀ e ∈ (tryCatch body handler).trace, P e := by
  intro e he
  unfold tryCatch at he
  split at he
  · exact h1 e he
  · rcases List.mem_append.mp he with h | h
    · exact h1 e h
    · exact h2 _ e h

theorem forall_tryFinally_emit {body : Run α} {e0 : Effect} (h1 : ∀ e ∈ body.trace, P e)
    (h2 : P e0) : ∀ e ∈ (tryFinally body (emit e0)).trace, P e := by
  intro e he
  change e ∈ body.trace ++ [e0] at he
  rcases List.mem_append.mp he with h | h
  · exact h1 e h
  · simp at h
    subst h
    exact h2

theorem tryFinally_emit_trace (body : Run α) (e0 : Effect) :
    (tryFinally body (emit e0)).trace = body.trace ++ [e0] := rfl

theorem tryFinally_emit_result (body : Run α) (e0 : Effect) :
    (tryFinally body (emit e0)).result = body.result := rfl

end Run

theorem forall_contractCall {α : Type} {P : Effect → Prop} (abi : List AbiEntry) (fn : String)
    (call : Effect) (outcome : Except String α) (h : P call) :
    ∀ e ∈ (contractCall abi fn call outcome).trace, P e := by
  unfold contractCall
  split
  · exact Run.forall_bind (Run.forall_emit h) (fun _ => Run.forall_await _)
  · exact Run.forall_fail _

theorem contractCall_result_ok {α : Type} {abi : List AbiEntry} {fn : String} {call : Effect}
    {outcome : Except String α} {a : α} (h : (contractCall abi fn call outcome).result = .ok a) :
    declares abi fn = true ∧ outcome = .ok a := by
  unfold contractCall at h
  split at h
  · next hd => exact ⟨hd, h⟩
  · cases h

/-! ## The purchase flow -/

namespace DatasetList

/-- Neither the `try` block nor the `catch` block of `handlePurchase` touches
`purchasingId`. -/
theorem tryCatch_no_setPurchasingId (abi : List AbiEntry) (env : PurchaseEnv) (mongoId : String)
    (contractId : JsVal) (name price : String) :
    ∀ e ∈ (Run.tryCatch (purchaseBody abi env mongoId contractId name price) purchaseCatch).trace,
      ∀ id, e ≠ Effect.setPurchasingId id := by
  apply Run.forall_tryCatch
  · unfold purchaseBody
    refine Run.forall_bind (Run.forall_await _) (fun _ => ?_)
    refine Run.forall_bind (forall_contractCall _ _ _ _ (by simp)) (fun _ => ?_)
    refine Run.forall_bind (Run.forall_emit (by simp)) (fun _ => ?_)
    dsimp only
    split
    · exact Run.forall_fail _
    refine Run.forall_bind (Run.forall_await _) (fun _ => ?_)
    refine Run.forall_bind (forall_contractCall _ _ _ _ (by simp)) (fun _ => ?_)
    refine Run.forall_bind (Run.forall_emit (by simp)) (fun _ => ?_)
    refine Run.forall_bind (Run.forall_emit (by simp)) (fun _ => ?_)
    refine Run.forall_bind (Run.forall_await _) (fun _ => ?_)
    refine Run.forall_bind (Run.forall_emit (by simp)) (fun _ => ?_)
    refine Run.forall_bind (Run.forall_await _) (fun _ => ?_)
    refine Run.forall_bind (Run.forall_await _) (fun _ => ?_)
    split
    · exact Run.forall_fail _
    refine Run.forall_bind (Run.forall_await _) (fun _ => ?_)
    refine Run.forall_bind (Run.forall_emit (by simp)) (fun _ => ?_)
    refine Run.forall_bind (Run.forall_await _) (fun _ => ?_)
    refine Run.forall_bind (Run.forall_emit (by simp)) (fun _ => ?_)
    exact Run.forall_emit (by simp)
  · intro m
    unfold purchaseCatch
    refine Run.forall_bind (Run.forall_emit (by simp)) (fun _ => ?_)
    exact Run.forall_emit (by simp)

/-- Effects other than `setPurchasingId` leave `purchasingId` as it is. -/
theorem purchasingIdAfter_of_no_set (init : Option String) (trace : List Effect)
    (h : ∀ e ∈ trace, ∀ id, e ≠ Effect.setPurchasingId id) :
    purchasingIdAfter init trace = init := by
  unfold purchasingIdAfter
  induction trace generalizing init with
  | nil => rfl
  | cons e t ih =>
    have he := h e (List.mem_cons_self _ _)
    have ht : ∀ e ∈ t, ∀ id, e ≠ Effect.setPurchasingId id :=
      fun e' he' => h e' (List.mem_cons_of_mem _ he')
    simp only [List.foldl_cons]
    cases e
    case setPurchasingId id => exact absurd rfl (he id)
    all_goals exact ih _ ht

theorem purchasingIdAfter_append (init : Option String) (t1 t2 : List Effect) :
    purchasingIdAfter init (t1 ++ t2) = purchasingIdAfter (purchasingIdAfter init t1) t2 := by
  simp [purchasingIdAfter, List.foldl_append]

/-- A trace that sets `purchasingId` to `id`, leaves it alone and clears it at the end
keeps it at `id` at every point strictly inside, and leaves it `null`. -/
theorem purchasingIdAfter_bracket (init : Option String) (id : String) (mid : List Effect)
    (hmid : ∀ e ∈ mid, ∀ i, e ≠ Effect.setPurchasingId i) :
    (∀ pre post, Effect.setPurchasingId (some id) :: (mid ++ [Effect.setPurchasingId none])
        = pre ++ post → pre ≠ [] → post ≠ [] → purchasingIdAfter init pre = some id) ∧
    purchasingIdAfter init
      (Effect.setPurchasingId (some id) :: (mid ++ [Effect.setPurchasingId none])) = none := by
  constructor
  · intro pre post hsplit hpre hpost
    cases pre with
    | nil => exact absurd rfl hpre
    | cons a pre1 =>
      simp only [List.cons_append, List.cons.injEq] at hsplit
      obtain ⟨ha, hrest⟩ := hsplit
      subst ha
      have hpref : pre1 <+: mid := by
        have h1 : pre1 <+: mid ++ [Effect.setPurchasingId none] := ⟨post, hrest.symm⟩
        rcases List.prefix_concat_iff.mp h1 with h | h
        · exfalso
          have hl := congrArg List.length hrest
          rw [h] at hl
          exact hpost (by simpa using hl)
        · exact h
      have hno : ∀ e ∈ pre1, ∀ i, e ≠ Effect.setPurchasingId i :=
        fun e he => hmid e (hpref.subset he)
      show purchasingIdAfter (some id) pre1 = some id
      exact purchasingIdAfter_of_no_set _ _ hno
  · show purchasingIdAfter (some id) (mid ++ [Effect.setPurchasingId none]) = none
    rw [purchasingIdAfter_append]
    rfl

/-- The flow itself never throws: what the `try` block throws, the `catch` block
turns into a notification. -/
theorem handlePurchase_result (abi : List AbiEntry) (env : PurchaseEnv) (mongoId : String)
    (contractId : JsVal) (name price : String) :
    (handlePurchase abi env mongoId contractId name price).result = .ok () := by
  have hcatch : (Run.tryCatch (purchaseBody abi env mongoId contractId name price)
      purchaseCatch).result = .ok () := by
    unfold Run.tryCatch
    split
    · next u hb => exact hb
    · rfl
  unfold handlePurchase
  split
  · rfl
  · show (Run.bind _ _).result = _
    simp only [Run.bind, Run.emit]
    exact hcatch

/-- C4 (busy-state property of a purchase flow). Every run of `handlePurchase` that passes
the wallet check sets `purchasingId` to the dataset's identifier as its first effect,
clears it as its last effect and does not touch it in between, whatever the outcome
of each step: so the busy flag of the dataset holds at every point strictly inside the
run, `purchasingId` is `null` when the run exits, and the run exits normally. -/
theorem handlePurchase_busy_flag (abi : List AbiEntry) (env : PurchaseEnv) (mongoId : String)
    (contractId : JsVal) (name price : String) (init : Option String)
    (hconn : env.isConnected = true) (hwallet : env.walletClient = true) :
    ∃ mid : List Effect,
      (handlePurchase abi env mongoId contractId name price).trace =
        Effect.setPurchasingId (some mongoId) :: (mid ++ [Effect.setPurchasingId none]) ∧
      (∀ e ∈ mid, ∀ id, e ≠ Effect.setPurchasingId id) ∧
      (∀ pre post, (handlePurchase abi env mongoId contractId name price).trace = pre ++ post →
        pre ≠ [] → post ≠ [] → purchasingIdAfter init pre = some mongoId) ∧
      purchasingIdAfter init (handlePurchase abi env mongoId contractId name price).trace = none ∧
      (handlePurchase abi env mongoId contractId name price).result = .ok () := by
  have hno := tryCatch_no_setPurchasingId abi env mongoId contractId name price
  have htrace : (handlePurchase abi env mongoId contractId name price).trace =
      Effect.setPurchasingId (some mongoId) ::
        ((Run.tryCatch (purchaseBody abi env mongoId contractId name price) purchaseCatch).trace
          ++ [Effect.setPurchasingId none]) := by
    simp [handlePurchase, hconn, hwallet, bind, Run.bind, Run.emit, Run.tryFinally]
  refine ⟨_, htrace, hno, ?_, ?_, handlePurchase_result _ _ _ _ _ _⟩
  · rw [htrace]
    exact (purchasingIdAfter_bracket init mongoId _ hno).1
  · rw [htrace]
    exact (purchasingIdAfter_bracket init mongoId _ hno).2

/-- Witness of C4, on the component as written: its own `CONTRACT_ABI`, wallet connected. -/
theorem handlePurchase_busy_flag_witness :
    ∃ mid : List Effect,
      (handlePurchase CONTRACT_ABI (samplePurchaseEnv 10000000000000000000 sampleBuyOk) "a1"
          (.num 1) "Set A" "10").trace =
        Effect.setPurchasingId (some "a1") :: (mid ++ [Effect.setPurchasingId none]) ∧
      (∀ e ∈ mid, ∀ id, e ≠ Effect.setPurchasingId id) ∧
      (∀ pre post, (handlePurchase CONTRACT_ABI (samplePurchaseEnv 10000000000000000000 sampleBuyOk)
          "a1" (.num 1) "Set A" "10").trace = pre ++ post →
        pre ≠ [] → post ≠ [] → purchasingIdAfter none pre = some "a1") ∧
      purchasingIdAfter none (handlePurchase CONTRACT_ABI
          (samplePurchaseEnv 10000000000000000000 sampleBuyOk) "a1" (.num 1) "Set A" "10").trace
        = none ∧
      (handlePurchase CONTRACT_ABI (samplePurchaseEnv 10000000000000000000 sampleBuyOk) "a1"
          (.num 1) "Set A" "10").result = .ok () :=
  handlePurchase_busy_flag CONTRACT_ABI (samplePurchaseEnv 10000000000000000000 sampleBuyOk) "a1"
    (.num 1) "Set A" "10" none rfl rfl

/-- C5 (unlisted records cannot be bought). A catalog record without an on-chain
identifier, its `contractId` absent, `undefined` or `null`, has its Buy button
disabled, whatever the wallet connection and the value of `purchasingId`. -/
theorem buyDisabled_of_no_contractId (purchasingId : Option String) (isConnected : Bool)
    (dataset : Dataset)
    (h : dataset.contractId = none ∨ dataset.contractId = some JsVal.undefined ∨
      dataset.contractId = some JsVal.null) :
    buyDisabled purchasingId isConnected dataset = true := by
  rcases h with h | h | h <;>
    simp [buyDisabled, Dataset.readContractId, h, JsVal.truthy]

/-- Witness of C5: a record without `contractId`, wallet connected, no purchase running. -/
theorem buyDisabled_of_no_contractId_witness :
    buyDisabled none true sampleUnlisted = true :=
  buyDisabled_of_no_contractId none true sampleUnlisted (Or.inl rfl)

/-- C6, evaluated on the source: the `CONTRACT_ABI` of `DatasetList.jsx` declares
`buyDataset` and not `getDataset`, that of `UploadForm.jsx` declares `buyDataset` and
`listDataset` and not `getDataset`; so a purchase with the component's own ABI, every
external call succeeding, stops at `contract.getDataset`, which is not a function. -/
theorem CONTRACT_ABI_lacks_getDataset :
    declares CONTRACT_ABI "buyDataset" = true ∧
    declares CONTRACT_ABI "getDataset" = false ∧
    declares UploadForm.CONTRACT_ABI "listDataset" = true ∧
    declares UploadForm.CONTRACT_ABI "getDataset" = false ∧
    (handlePurchase CONTRACT_ABI (samplePurchaseEnv 10000000000000000000 sampleBuyOk) "a1"
        (.num 1) "Set A" "10").trace =
      [ .setPurchasingId (some "a1"),
        .consoleError "Purchase error: contract.getDataset is not a function",
        .toastError "contract.getDataset is not a function",
        .setPurchasingId none ] := by
  decide

end DatasetList

/-! ## The upload flow -/

namespace UploadForm

/-- Effects other than `setFormData` leave `formData` as it is. -/
theorem formDataAfter_of_no_set (init : FormData) (trace : List Effect)
    (h : ∀ e ∈ trace, ∀ fd, e ≠ Effect.setFormData fd) :
    formDataAfter init trace = init := by
  unfold formDataAfter
  induction trace generalizing init with
  | nil => rfl
  | cons e t ih =>
    have he := h e (List.mem_cons_self _ _)
    have ht : ∀ e ∈ t, ∀ fd, e ≠ Effect.setFormData fd :=
      fun e' he' => h e' (List.mem_cons_of_mem _ he')
    simp only [List.foldl_cons]
    cases e
    case setFormData fd => exact absurd rfl (he fd)
    all_goals exact ih _ ht

/-- C8 (receipt without a `DatasetListed` event). When the upload and the listing
transaction succeed and no event of the receipt is named `DatasetListed`, the flow
performs exactly the effects listed: after the confirmation wait it fails on reading
`event.args`, shows that error as a notification and clears the uploading flag. No
`POST /api/updateDatasetContractId` is made and `formData` is not reset. -/
theorem handleSubmit_no_DatasetListed (abi : List AbiEntry) (env : UploadEnv)
    (formData : FormData) (res : HttpResponse UploadBody) (data : UploadBody) (priceWei : Int)
    (receipt : Receipt)
    (hconn : env.isConnected = true) (hwallet : env.walletClient = true)
    (hres : env.fetchUpload = .ok res) (hok : res.ok = true) (hdata : res.json = .ok data)
    (hctr : env.connect = .ok ()) (hwei : parseEther formData.price = .ok priceWei)
    (hdecl : declares abi "listDataset" = true)
    (hlist : env.listDataset data.bucketName data.fileName priceWei = .ok ())
    (hwait : env.wait = .ok receipt)
    (hnone : ∀ e ∈ receipt.events, e.event ≠ some "DatasetListed") :
    (handleSubmit abi env formData).trace =
      [ .setIsUploading true,
        .postUpload env.address formData,
        .listDataset data.bucketName data.fileName priceWei,
        .txWait,
        .toastError "Cannot read properties of undefined (reading 'args')",
        .consoleError "Cannot read properties of undefined (reading 'args')",
        .setIsUploading false ] ∧
    (∀ tempId contractId, Effect.postUpdateDatasetContractId tempId contractId ∉
      (handleSubmit abi env formData).trace) ∧
    (∀ fd, Effect.setFormData fd ∉ (handleSubmit abi env formData).trace) := by
  have hfind : (receipt.events.map (parseLog abi)).find?
      (fun e => e.event = some "DatasetListed") = none := by
    rw [List.find?_eq_none]
    intro e he
    obtain ⟨log, hlog, rfl⟩ := List.mem_map.mp he
    have hraw := hnone log hlog
    unfold parseLog
    split
    · split
      · simpa using hraw
      · simp
    · simp
  have htrace : (handleSubmit abi env formData).trace =
      [ .setIsUploading true,
        .postUpload env.address formData,
        .listDataset data.bucketName data.fileName priceWei,
        .txWait,
        .toastError "Cannot read properties of undefined (reading 'args')",
        .consoleError "Cannot read properties of undefined (reading 'args')",
        .setIsUploading false ] := by
    have hm : orElse "Cannot read properties of undefined (reading 'args')" "Upload failed"
        = "Cannot read properties of undefined (reading 'args')" := by decide
    simp [handleSubmit, submitBody, submitCatch, contractCall, Run.tryFinally, Run.tryCatch,
      bind, Run.bind, Run.emit, Run.await, Run.fail, hconn, hwallet, hres, hok, hdata, hctr,
      hwei, hdecl, hlist, hwait, hfind, extractDatasetId, hm]
  refine ⟨htrace, ?_, ?_⟩
  · intro tempId contractId hmem
    rw [htrace] at hmem
    simp at hmem
  · intro fd hmem
    rw [htrace] at hmem
    simp at hmem

/-- Witness of C8: every call succeeds and the receipt carries one event, which ethers
could not name. -/
theorem handleSubmit_no_DatasetListed_witness :
    (handleSubmit CONTRACT_ABI
        (sampleUploadEnv { events := [{ event := none, args := none }] }) sampleForm).trace =
      [ .setIsUploading true,
        .postUpload "0xSeller" sampleForm,
        .listDataset "bucket" "data.zip" 1500000000000000000,
        .txWait,
        .toastError "Cannot read properties of undefined (reading 'args')",
        .consoleError "Cannot read properties of undefined (reading 'args')",
        .setIsUploading false ] ∧
    (∀ tempId contractId, Effect.postUpdateDatasetContractId tempId contractId ∉
      (handleSubmit CONTRACT_ABI
        (sampleUploadEnv { events := [{ event := none, args := none }] }) sampleForm).trace) ∧
    (∀ fd, Effect.setFormData fd ∉
      (handleSubmit CONTRACT_ABI
        (sampleUploadEnv { events := [{ event := none, args := none }] }) sampleForm).trace) :=
  handleSubmit_no_DatasetListed CONTRACT_ABI
    (sampleUploadEnv { events := [{ event := none, args := none }] }) sampleForm
    { ok := true, json := .ok { message := none, tempId := "t1", bucketName := "bucket",
                                fileName := "data.zip" } }
    { message := none, tempId := "t1", bucketName := "bucket", fileName := "data.zip" }
    1500000000000000000 { events := [{ event := none, args := none }] }
    rfl rfl rfl rfl rfl rfl (by decide) (by decide) rfl rfl (by decide)

end UploadForm

/-! ## Prices: listing, check and payment -/

/-- What `parseEther` accepts, `parseFloat` reads as the same amount of ether. -/
theorem parseFloat_of_parseEther (price : String) (wei : Int) (h : parseEther price = .ok wei) :
    parseFloat price = toNumber (mkRat wei (10 ^ 18)) :=
  parseFloatChars_of_parseFixed price.toList 18 wei h

/-- The string `formatEther` writes, `parseFloat` reads as that amount of ether. -/
theorem parseFloat_formatEther (wei : Int) :
    parseFloat (formatEther wei) = toNumber (mkRat wei (10 ^ 18)) :=
  parseFloatChars_of_parseFixed (formatFixed wei 18) 18 wei (parseFixed_formatFixed wei 18)

/-- A decimal price converts to a non-negative number of wei. -/
theorem parseEther_of_isDecimalPrice (price : String) (h : IsDecimalPrice price) :
    ∃ wei : Int, parseEther price = .ok wei ∧ 0 ≤ wei := by
  obtain ⟨w, f, hw, hf, hne, hlen, hp | ⟨_, hp⟩⟩ := h
  · refine ⟨(digitsToNat w : Int) * 10 ^ 18, ?_, by positivity⟩
    unfold parseEther
    rw [hp]
    exact parseFixed_int w 18 hw hne
  · refine ⟨(digitsToNat w : Int) * 10 ^ 18 +
      ((digitsToNat (dropTrailingZeros f) * 10 ^ (18 - (dropTrailingZeros f).length) : Nat)
        : Int), ?_, by positivity⟩
    unfold parseEther
    rw [hp]
    refine parseFixed_dot w f 18 hw hf (fun h => hne h.1) ?_
    exact le_trans (List.IsPrefix.length_le (List.rdropWhile_prefix _ _)) hlen


/-- C10 (listing and purchase agree on price). For every price written as a
non-negative decimal with at most 18 fractional digits, `parseEther(price)`, the
amount the Upload Form lists on-chain, is a non-negative number of wei, and
`formatEther` of it reads under `parseFloat` as the same Number as the price itself:
the price check `parseFloat(formatEther(wei)) !== parseFloat(price)` of the Dataset
List is false, so the purchase is not rejected as a price mismatch. -/
theorem listed_price_passes_check (price : String) (h : IsDecimalPrice price) :
    ∃ wei : Int, parseEther price = .ok wei ∧ 0 ≤ wei ∧
      parseFloat (formatEther wei) = parseFloat price ∧
      (parseFloat (formatEther wei)).strictNe (parseFloat price) = false := by
  obtain ⟨wei, hwei, hpos⟩ := parseEther_of_isDecimalPrice price h
  have heq : parseFloat (formatEther wei) = parseFloat price := by
    rw [parseFloat_formatEther, parseFloat_of_parseEther price wei hwei]
  refine ⟨wei, hwei, hpos, heq, ?_⟩
  rw [heq, parseFloat_of_parseEther price wei hwei]
  exact strictNe_self _ (toNumber_ne_nan _)

/-- Witness of C10: the price "1.5". -/
theorem listed_price_passes_check_witness :
    IsDecimalPrice "1.5" ∧
    ∃ wei : Int, parseEther "1.5" = .ok wei ∧ 0 ≤ wei ∧
      parseFloat (formatEther wei) = parseFloat "1.5" ∧
      (parseFloat (formatEther wei)).strictNe (parseFloat "1.5") = false :=
  ⟨⟨['1'], ['5'], by decide, by decide, by decide, by decide, Or.inr ⟨by decide, rfl⟩⟩,
   listed_price_passes_check "1.5"
     ⟨['1'], ['5'], by decide, by decide, by decide, by decide, Or.inr ⟨by decide, rfl⟩⟩⟩

/-! ## The component as written: its own `CONTRACT_ABI` -/

/-- Values of `parseFloat`, `parseEther`, `formatEther` and `||` on sample strings. -/
theorem price_functions_values :
    parseFloat "0.1" = .finite 7205759403792794 (-56) ∧
    parseFloat "10" = .finite 5629499534213120 (-49) ∧
    parseFloat "10.0" = parseFloat "10" ∧
    parseFloat "1e1" = parseFloat "10" ∧
    parseFloat "100E-1" = parseFloat "10" ∧
    parseFloat "  -12.5abc" = .finite (-7036874417766400) (-49) ∧
    parseFloat "9007199254740993" = .finite 4503599627370496 1 ∧
    parseFloat "abc" = .nan ∧
    parseFloat "." = .nan ∧
    parseFloat "Infinity" = .infinity false ∧
    (parseFloat "abc").strictNe (parseFloat "abc") = true ∧
    parseEther "1.5" = .ok 1500000000000000000 ∧
    parseEther "-1.5" = .ok (-1500000000000000000) ∧
    parseEther "1e1" = .error "invalid decimal value" ∧
    parseEther "." = .error "missing value" ∧
    parseEther "1.2.3" = .error "too many decimal points" ∧
    parseEther "0.0000000000000000001" = .error "fractional component exceeds decimals" ∧
    formatEther 1500000000000000000 = "1.5" ∧
    formatEther 12000000000000000000 = "12.0" ∧
    formatEther 1 = "0.000000000000000001" ∧
    orElse "" "Purchase failed" = "Purchase failed" ∧
    orElse "Not found" "Purchase failed" = "Not found" := by
  decide

namespace DatasetList

theorem own_abi_no_getDataset : declares CONTRACT_ABI "getDataset" = false := by decide

/-- With the component's own `CONTRACT_ABI`, a run of `handlePurchase` is the wallet
notification, or: set the busy flag, the console error, the error notification, clear
the busy flag. The error is that of lines 53-55 when they throw, and otherwise the
`TypeError` of line 58, `contract.getDataset` not being a function. -/
theorem handlePurchase_own_abi (env : PurchaseEnv) (mongoId : String) (contractId : JsVal)
    (name price : String) :
    (handlePurchase CONTRACT_ABI env mongoId contractId name price).trace =
      if !env.isConnected || !env.walletClient then
        [Effect.toastError "Please connect your wallet first"]
      else
        [ .setPurchasingId (some mongoId),
          .consoleError ("Purchase error: " ++
            (match env.connect with
             | .ok _ => "contract.getDataset is not a function"
             | .error m => m)),
          .toastError (orElse
            (match env.connect with
             | .ok _ => "contract.getDataset is not a function"
             | .error m => m) "Purchase failed"),
          .setPurchasingId none ] := by
  have hs : "contract." ++ "getDataset" ++ " is not a function"
      = "contract.getDataset is not a function" := by decide
  unfold handlePurchase
  split
  · rfl
  · cases hc : env.connect with
    | error m =>
      simp [purchaseBody, purchaseCatch, Run.tryFinally, Run.tryCatch, bind, Run.bind, Run.emit,
        Run.await, hc]
    | ok u =>
      simp [purchaseBody, purchaseCatch, contractCall, own_abi_no_getDataset, Run.tryFinally,
        Run.tryCatch, bind, Run.bind, Run.emit, Run.await, Run.fail, hc, hs]

/-- With the component's own `CONTRACT_ABI` no run of `handlePurchase` reaches an
`await`. -/
theorem suspends_own_abi (env : PurchaseEnv) (dataset : Dataset) :
    suspends CONTRACT_ABI env dataset = false := by
  unfold suspends
  rw [handlePurchase_own_abi]
  split <;> simp

theorem purchasingIdAfter_own_abi (env : PurchaseEnv) (mongoId : String) (contractId : JsVal)
    (name price : String) :
    purchasingIdAfter none (handlePurchase CONTRACT_ABI env mongoId contractId name price).trace
      = none := by
  rw [handlePurchase_own_abi]
  split <;> rfl

theorem step_own_abi (env : PurchaseEnv) (event : ViewEvent) :
    ViewState.step CONTRACT_ABI env { purchasingId := none, inFlight := [] } event =
      { purchasingId := none, inFlight := [] } := by
  cases event with
  | clickBuy dataset =>
    simp only [ViewState.step, suspends_own_abi, purchasingIdAfter_own_abi]
    split <;> simp
  | flowExits mongoId => simp [ViewState.step]

/-- C1, evaluated on the component as written. Wallet connected, the contract stores
12 tFIL for the identifier, the catalog says "10": the two prices differ, and the run
is set busy, console error, the notification "contract.getDataset is not a function",
clear busy. The price-mismatch notification is not shown; `buyDataset` is not sent. -/
theorem handlePurchase_mismatch_not_reported :
    (parseFloat (formatEther (12000000000000000000 : Nat))).strictNe (parseFloat "10") = true ∧
    (handlePurchase CONTRACT_ABI (samplePurchaseEnv 12000000000000000000 sampleBuyOk) "a1"
        (.num 1) "Set A" "10").trace =
      [ .setPurchasingId (some "a1"),
        .consoleError "Purchase error: contract.getDataset is not a function",
        .toastError "contract.getDataset is not a function",
        .setPurchasingId none ] ∧
    Effect.toastError "Price mismatch: UI says 10 tFIL, contract says 12.0 tFIL" ∉
      (handlePurchase CONTRACT_ABI (samplePurchaseEnv 12000000000000000000 sampleBuyOk) "a1"
        (.num 1) "Set A" "10").trace ∧
    "Price mismatch: UI says " ++ "10" ++ " tFIL, contract says "
        ++ formatEther (12000000000000000000 : Nat) ++ " tFIL"
      = "Price mismatch: UI says 10 tFIL, contract says 12.0 tFIL" := by
  decide

/-- C2, evaluated on the component as written. With its own `CONTRACT_ABI` the flow
sends `buyDataset` in no run, whatever the wallet, the contract and the backend do; so
also when the catalog says "10" and the contract stores 10 tFIL, prices that agree
and of which `parseEther` is the on-chain amount. -/
theorem handlePurchase_never_submits :
    (∀ (env : PurchaseEnv) (mongoId : String) (contractId : JsVal) (name price : String)
        (cid : JsVal) (v : Int),
      Effect.buyDataset cid v ∉
        (handlePurchase CONTRACT_ABI env mongoId contractId name price).trace) ∧
    (parseFloat (formatEther (10000000000000000000 : Nat))).strictNe (parseFloat "10") = false ∧
    parseEther "10" = .ok ((10000000000000000000 : Nat) : Int) ∧
    (handlePurchase CONTRACT_ABI (samplePurchaseEnv 10000000000000000000 sampleBuyOk) "a1"
        (.num 1) "Set A" "10").trace.length = 4 := by
  refine ⟨?_, by decide, by decide, by decide⟩
  intro env mongoId contractId name price cid v hmem
  rw [handlePurchase_own_abi] at hmem
  split at hmem <;> simp at hmem

/-- C3, evaluated on the component as written. With its own `CONTRACT_ABI` every click
on an enabled Buy button runs its `handlePurchase` to the end inside the click: after
any sequence of clicks and exits no flow is in flight and `purchasingId` is `null`. So
after a click on record A and a click on record B, wallet connected, neither purchase is
in flight. -/
theorem view_never_in_flight :
    (∀ (env : PurchaseEnv) (events : List ViewEvent),
      ViewState.run CONTRACT_ABI env events = { purchasingId := none, inFlight := [] }) ∧
    ViewState.run CONTRACT_ABI (samplePurchaseEnv 10000000000000000000 sampleBuyOk)
        [.clickBuy sampleA] = { purchasingId := none, inFlight := [] } ∧
    buyDisabled none true sampleA = false ∧ buyDisabled none true sampleB = false ∧
    ViewState.run CONTRACT_ABI (samplePurchaseEnv 10000000000000000000 sampleBuyOk)
        [.clickBuy sampleA, .clickBuy sampleB] = { purchasingId := none, inFlight := [] } := by
  have hall : ∀ (env : PurchaseEnv) (events : List ViewEvent),
      ViewState.run CONTRACT_ABI env events = { purchasingId := none, inFlight := [] } := by
    intro env events
    unfold ViewState.run
    induction events with
    | nil => rfl
    | cons e t ih => rw [List.foldl_cons, step_own_abi, ih]
  exact ⟨hall, hall _ _, by decide, by decide, hall _ _⟩

/-- C7, evaluated on the component as written. With its own `CONTRACT_ABI` no run of
`handlePurchase` waits for a transaction or calls `POST /api/buy`. With the wallet
connected, a contract on which the purchase would go through and a backend that would
answer 403 with the message "Purchase not found", the run is set busy, console error,
the notification "contract.getDataset is not a function", clear busy: the message of
the response is not shown; no blob, no click on a download link. -/
theorem handlePurchase_fulfillment_not_reached :
    (∀ (env : PurchaseEnv) (mongoId : String) (contractId : JsVal) (name price : String),
      Effect.txWait ∉ (handlePurchase CONTRACT_ABI env mongoId contractId name price).trace ∧
      (∀ wallet datasetId, Effect.postBuy wallet datasetId ∉
        (handlePurchase CONTRACT_ABI env mongoId contractId name price).trace) ∧
      (∀ bytes, Effect.newBlob bytes ∉
        (handlePurchase CONTRACT_ABI env mongoId contractId name price).trace) ∧
      (∀ file, Effect.linkClick file ∉
        (handlePurchase CONTRACT_ABI env mongoId contractId name price).trace)) ∧
    (handlePurchase CONTRACT_ABI (samplePurchaseEnv 10000000000000000000 sampleBuyForbidden)
        "a1" (.num 1) "Set A" "10").trace =
      [ .setPurchasingId (some "a1"),
        .consoleError "Purchase error: contract.getDataset is not a function",
        .toastError "contract.getDataset is not a function",
        .setPurchasingId none ] ∧
    Effect.toastError "Purchase not found" ∉
      (handlePurchase CONTRACT_ABI (samplePurchaseEnv 10000000000000000000 sampleBuyForbidden)
        "a1" (.num 1) "Set A" "10").trace ∧
    Effect.toastError "Failed to retrieve dataset" ∉
      (handlePurchase CONTRACT_ABI (samplePurchaseEnv 10000000000000000000 sampleBuyForbidden)
        "a1" (.num 1) "Set A" "10").trace := by
  refine ⟨?_, by decide, by decide, by decide⟩
  intro env mongoId contractId name price
  rw [handlePurchase_own_abi]
  split <;> simp

end DatasetList

namespace UploadForm

theorem own_abi_no_event (name : String) : declaresEvent CONTRACT_ABI name = false := by
  simp [declaresEvent, CONTRACT_ABI]

/-- With the component's own `CONTRACT_ABI`, which has no event fragment, ethers names
no log: `find` of line 114 returns `undefined` on every receipt. -/
theorem find_own_abi (receipt : Receipt) :
    (receipt.events.map (parseLog CONTRACT_ABI)).find?
      (fun e => e.event = some "DatasetListed") = none := by
  rw [List.find?_eq_none]
  intro e he
  obtain ⟨log, _, rfl⟩ := List.mem_map.mp he
  unfold parseLog
  split
  · simp [own_abi_no_event]
  · simp

/-- With the component's own `CONTRACT_ABI` the `try` block of `handleSubmit` never
gets past line 115: no linkage call, no success notification, no reset of the form. -/
theorem submitBody_own_abi (env : UploadEnv) (formData : FormData) :
    ∀ e ∈ (submitBody CONTRACT_ABI env formData).trace,
      (∀ fd, e ≠ Effect.setFormData fd) ∧
      (∀ tempId contractId, e ≠ Effect.postUpdateDatasetContractId tempId contractId) ∧
      (∀ m, e ≠ Effect.toastSuccess m) := by
  unfold submitBody
  refine Run.forall_bind_ok (Run.forall_emit (by simp)) (fun _ _ => ?_)
  refine Run.forall_bind_ok (Run.forall_await _) (fun res _ => ?_)
  split
  · refine Run.forall_bind_ok (Run.forall_await _) (fun _ _ => ?_)
    exact Run.forall_fail _
  refine Run.forall_bind_ok (Run.forall_await _) (fun data _ => ?_)
  refine Run.forall_bind_ok (Run.forall_await _) (fun _ _ => ?_)
  refine Run.forall_bind_ok (Run.forall_await _) (fun priceWei _ => ?_)
  refine Run.forall_bind_ok (forall_contractCall _ _ _ _ (by simp)) (fun _ _ => ?_)
  refine Run.forall_bind_ok (Run.forall_emit (by simp)) (fun _ _ => ?_)
  refine Run.forall_bind_ok (Run.forall_await _) (fun receipt _ => ?_)
  dsimp only
  refine Run.forall_bind_ok (Run.forall_await _) (fun datasetId hid => ?_)
  exfalso
  rw [find_own_abi] at hid
  cases hid

theorem handleSubmit_own_abi (env : UploadEnv) (formData : FormData) :
    ∀ e ∈ (handleSubmit CONTRACT_ABI env formData).trace,
      (∀ fd, e ≠ Effect.setFormData fd) ∧
      (∀ tempId contractId, e ≠ Effect.postUpdateDatasetContractId tempId contractId) ∧
      (∀ m, e ≠ Effect.toastSuccess m) := by
  unfold handleSubmit
  split
  · exact Run.forall_emit (by simp)
  split
  · exact Run.forall_emit (by simp)
  refine Run.forall_bind (Run.forall_emit (by simp)) (fun _ => ?_)
  refine Run.forall_tryFinally_emit ?_ (by simp)
  refine Run.forall_tryCatch (submitBody_own_abi env formData) (fun m => ?_)
  unfold submitCatch
  refine Run.forall_bind (Run.forall_emit (by simp)) (fun _ => ?_)
  exact Run.forall_emit (by simp)

/-- C9, evaluated on the component as written. With its own `CONTRACT_ABI` no
submission resets the form, calls the linkage endpoint or shows the success
notification: `formData` ends as it was in every run. So also for the filled-in form
when the wallet is connected, the upload answers OK, `listDataset` is sent and
confirmed, the receipt carries a `DatasetListed` log with identifier 7 and the linkage
endpoint would answer OK: the run stops at line 115 with the `TypeError` as
notification, and the form stays as filled in. -/
theorem handleSubmit_never_resets :
    (∀ (env : UploadEnv) (formData : FormData),
      formDataAfter formData (handleSubmit CONTRACT_ABI env formData).trace = formData ∧
      (∀ tempId contractId, Effect.postUpdateDatasetContractId tempId contractId ∉
        (handleSubmit CONTRACT_ABI env formData).trace) ∧
      (∀ m, Effect.toastSuccess m ∉ (handleSubmit CONTRACT_ABI env formData).trace)) ∧
    (handleSubmit CONTRACT_ABI
        (sampleUploadEnv { events := [{ event := some "DatasetListed",
                                        args := some { id := some 7 } }] })
        sampleForm).trace =
      [ .setIsUploading true,
        .postUpload "0xSeller" sampleForm,
        .listDataset "bucket" "data.zip" 1500000000000000000,
        .txWait,
        .toastError "Cannot read properties of undefined (reading 'args')",
        .consoleError "Cannot read properties of undefined (reading 'args')",
        .setIsUploading false ] ∧
    formDataAfter sampleForm (handleSubmit CONTRACT_ABI
        (sampleUploadEnv { events := [{ event := some "DatasetListed",
                                        args := some { id := some 7 } }] })
        sampleForm).trace = sampleForm ∧
    sampleForm ≠ initialFormData := by
  refine ⟨?_, by decide, by decide, by decide⟩
  intro env formData
  have h := handleSubmit_own_abi env formData
  refine ⟨?_, ?_, ?_⟩
  · exact formDataAfter_of_no_set _ _ (fun e he fd => (h e he).1 fd)
  · intro tempId contractId hmem
    exact (h _ hmem).2.1 tempId contractId rfl
  · intro m hmem
    exact (h _ hmem).2.2 m rfl

end UploadForm

end AkaveAI
